import Mathlib

/-!
Verification of the Dukong course-scheduling conflict engine.

The definitions below are a shallow embedding of the conflict-scoring
code of the repository:

  * `pages/api/scheduling-conflicts.js` (the conflicts-only report),
  * `pages/api/conflict-matrix.js` (the matrix report),
  * `utils/courseOfferingClient.js` (the course-offering resolver).

JavaScript numbers are modelled as `ℚ` (floating point rounding plays no
role in the claims settled here), JS objects holding per-key data as
association lists in insertion order, and CSV rows as association lists
from header names to cell strings (a missing header yields `none`, the
JS `undefined`).  Semester tokens such as `sp2026` are kept structured
as `Semester` inside the engine; the wire-level token handling (the
regular expression `(fa|sp)(\d{4})`, `parseInt`, `slice`) is modelled
character by character where a claim depends on it.
-/

set_option maxRecDepth 4000

namespace Dukong

/-- Season of a semester: `fa` (Fall) or `sp` (Spring). -/
inductive Season
  | fa
  | sp
deriving DecidableEq

/-- A parsed semester token, e.g. `sp2026`. The wire format is a
two-letter season followed by a 4-digit year. -/
structure Semester where
  season : Season
  year : Nat
deriving DecidableEq

/-- The decimal digit character for `d` (meaningful for `d ≤ 9`). -/
def digitChar (d : Nat) : Char := Char.ofNat (48 + d)

/-- Fuel-driven decimal rendering of a natural number (the fuel makes the
definition structurally recursive, so that it reduces in the kernel). -/
def natCharsAux : Nat → Nat → List Char
  | 0, _ => []
  | fuel + 1, n => if n < 10 then [digitChar n] else natCharsAux fuel (n / 10) ++ [digitChar (n % 10)]

/-- Decimal rendering of a natural number as a character list, the model of
JavaScript number-to-string conversion in template literals. -/
def natChars (n : Nat) : List Char := natCharsAux (n + 1) n

/-- Decimal rendering of a natural number as a string. -/
def natString (n : Nat) : String := String.mk (natChars n)

/-- The two-letter season code used in semester tokens. -/
def seasonShort : Season → String
  | .fa => String.mk ['f', 'a']
  | .sp => String.mk ['s', 'p']

/-- Serialize a semester to its token, e.g. `sp2026`. -/
def renderToken (s : Semester) : String := seasonShort s.season ++ natString s.year

/-- The long season name (`Fall` / `Spring`), as passed to the offering
resolver by `generateConflictMatrix`. -/
def seasonName : Season → String
  | .fa => String.mk ['F', 'a', 'l', 'l']
  | .sp => String.mk ['S', 'p', 'r', 'i', 'n', 'g']

/-- Whether a character is a decimal digit. -/
def isDigitCh (c : Char) : Bool := 48 ≤ c.toNat && c.toNat ≤ 57

/-- Numeric value of a digit character. -/
def digitVal (c : Char) : Nat := c.toNat - 48

/-- Leftmost match of the regular expression `(fa|sp)(\d{4})`, returning
`(isFall, year)`: the model of `semester.match(/(fa|sp)(\d{4})/)` used by
both `parseSemester` in `courseOfferingClient.js` and the semester check in
`generateConflictMatrix`.  The search is unanchored, exactly like the
source regular expression. -/
def findFaSp : List Char → Option (Bool × Nat)
  | a :: b :: c :: d :: e :: f :: rest =>
      if ((a = 'f' ∧ b = 'a') ∨ (a = 's' ∧ b = 'p')) ∧
          (isDigitCh c ∧ isDigitCh d ∧ isDigitCh e ∧ isDigitCh f) then
        some (a = 'f', 1000 * digitVal c + 100 * digitVal d + 10 * digitVal e + digitVal f)
      else
        findFaSp (b :: c :: d :: e :: f :: rest)
  | _ => none

/-- Leftmost `(fa|sp)(\d{4})` match on a string. -/
def matchSemesterToken (s : String) : Option (Bool × Nat) := findFaSp s.data

/-- Model of JavaScript `parseInt` on a string: the longest leading run of
decimal digits, `none` when there is none (`NaN`). -/
def parseIntStr (s : String) : Option Nat :=
  let ds := s.data.takeWhile isDigitCh
  if ds.isEmpty then none else some (ds.foldl (fun a c => a * 10 + digitVal c) 0)

/-- `parseIntStr` with the default `0`, used only to model the numeric sort
comparator on course numbers. -/
def parseIntD (s : String) : Nat := (parseIntStr s).getD 0

/-- Model of `String.prototype.toLowerCase` for the ASCII strings involved. -/
def lowerStr (s : String) : String := String.mk (s.data.map Char.toLower)

/-- Roster entry, the per-student record pushed into a course enrollment
by `getCoursesForSemester` (`{id, name, gradYear, expectedGraduation}`). -/
structure StudentInfo where
  id : Nat
  name : String
  gradYear : Int
  expectedGraduation : Semester
deriving DecidableEq

/-- One course entry of a student's per-semester plan. -/
structure PlanCourse where
  course_id : String
  department : String
  number : String
  title : String
  status : String
deriving DecidableEq

/-- A student record with the per-semester plan, keyed by semester token. -/
structure StudentRec where
  id : Nat
  name : String
  gradYear : Int
  expectedGraduation : Semester
  plan : List (String × List PlanCourse)
deriving DecidableEq

/-- The roster projection of a student record. -/
def StudentRec.info (s : StudentRec) : StudentInfo :=
  ⟨s.id, s.name, s.gradYear, s.expectedGraduation⟩

/-- A per-course enrollment: course metadata plus the roster of students
planning it (one push per matching plan entry). -/
structure CourseEnrollment where
  course_id : String
  department : String
  number : String
  title : String
  students : List StudentInfo
deriving DecidableEq

/-- A parsed CSV row: association list from header name to cell text.
Reading an absent header yields `none` (JS `undefined`). -/
abbrev Row : Type := List (String × String)

/-- Field access on a CSV row (`row[header]`). -/
def getField (r : Row) (k : String) : Option String :=
  (r.find? (fun p => p.1 == k)).map (·.2)

/-- Field access as used inside a template literal: JS stringifies an
`undefined` field as `"undefined"`. -/
def getFieldT (r : Row) (k : String) : String :=
  (getField r k).getD (String.mk ['u', 'n', 'd', 'e', 'f', 'i', 'n', 'e', 'd'])

/-- Offering-code lookup in the offering table (`offerings[courseId]`). -/
def lookupOffering (offerings : List (String × String)) (courseId : String) : Option String :=
  (offerings.find? (fun p => p.1 == courseId)).map (·.2)

/-- Course-offering resolver, from `isCourseOffered` in
`utils/courseOfferingClient.js`: looks up the offering code, renders
`semesterShort + year` and re-parses it with `(fa|sp)(\d{4})`, then applies
the recurrence code.  A missing or empty code and an unrecognized code both
fail closed.  (`isSpring` in the source is the complement of `isFall`
because the regular expression admits only `fa` and `sp`.) -/
def isCourseOffered (offerings : List (String × String)) (courseId : String)
    (semester : String) (year : Nat) : Bool :=
  match lookupOffering offerings courseId with
  | none => false
  | some code =>
    if code == String.mk [] then false
    else
      let semesterShort :=
        if lowerStr semester == String.mk ['f', 'a', 'l', 'l'] then String.mk ['f', 'a']
        else if lowerStr semester == String.mk ['s', 'p', 'r', 'i', 'n', 'g'] then String.mk ['s', 'p']
        else lowerStr semester
      match findFaSp (semesterShort.data ++ natChars year) with
      | none => false
      | some (isFall, y) =>
        if code == String.mk ['e'] then true
        else if code == String.mk ['e', 'f'] then isFall
        else if code == String.mk ['e', 's'] then !isFall
        else if code == String.mk ['f', 'o'] then isFall && y % 2 == 1
        else if code == String.mk ['f', 'e'] then isFall && y % 2 == 0
        else if code == String.mk ['s', 'o'] then !isFall && y % 2 == 1
        else if code == String.mk ['s', 'e'] then !isFall && y % 2 == 0
        else if code == String.mk ['s', 'p'] then !isFall
        else false

/-- The status string `planned`. -/
def plannedStatus : String := String.mk ['p', 'l', 'a', 'n', 'n', 'e', 'd']

/-- The semester slot of a student's plan for a token
(`student.plan[semester].courses`, empty when the key is absent). -/
def planFor (st : StudentRec) (token : String) : List PlanCourse :=
  match st.plan.find? (fun p => p.1 == token) with
  | some p => p.2
  | none => []

/-- One step of the enrollment aggregation: process a single plan entry of a
single student, appending the student to the course's roster (creating the
enrollment on first sight), exactly as the inner loop of
`getCoursesForSemester` does on the JS object `courseEnrollments`. -/
def addPlanned (acc : List CourseEnrollment) (st : StudentRec) (c : PlanCourse) :
    List CourseEnrollment :=
  if c.status == plannedStatus then
    if acc.any (fun e => e.course_id == c.course_id) then
      acc.map (fun e =>
        if e.course_id == c.course_id then { e with students := e.students ++ [st.info] } else e)
    else
      acc ++ [⟨c.course_id, c.department, c.number, c.title, [st.info]⟩]
  else acc

/-- The (student, plan entry) pairs visited by the two nested `forEach`
loops of `getCoursesForSemester`, in visit order. -/
def planPairs (students : List StudentRec) (token : String) : List (StudentRec × PlanCourse) :=
  students.flatMap (fun st => (planFor st token).map (fun c => (st, c)))

/-- Enrollment aggregator, from `getCoursesForSemester` (identical in both
API files): scan every student's plan for the token and group `planned`
entries into per-course rosters.  The JS object iterates its keys in
insertion order, so its `Object.values` is the association list built
left-to-right over the visited (student, entry) pairs. -/
def getCoursesForSemester (students : List StudentRec) (token : String) :
    List CourseEnrollment :=
  (planPairs students token).foldl (fun acc p => addPlanned acc p.1 p.2) []

/-- Class standing returned by `getStudentYear`. -/
inductive Standing
  | Freshman
  | Sophomore
  | Junior
  | Senior
deriving DecidableEq

/-- The `yearsUntilGraduation` quantity computed inside `getStudentYear`
(identical in both API files).  The source reads the season prefix and the
4-digit year out of the semester token; here the parsed pair is taken
directly. -/
def yearsUntilGraduation (st : StudentInfo) (sem : Semester) : ℚ :=
  if st.gradYear = (sem.year : Int) then
    if sem.season = .sp ∧ st.expectedGraduation.season = .fa then 1/2
    else if sem.season = .fa ∧ st.expectedGraduation.season = .sp then 1/2
    else 0
  else
    ((st.gradYear : ℚ) - (sem.year : ℚ)) +
      (if sem.season = .sp ∧ st.expectedGraduation.season = .fa then -(1/2)
       else if sem.season = .fa ∧ st.expectedGraduation.season = .sp then 1/2
       else 0)

/-- Standing classifier, from `getStudentYear` (identical in both API
files). -/
def getStudentYear (st : StudentInfo) (sem : Semester) : Standing :=
  let y := yearsUntilGraduation st sem
  if y ≤ 1/2 then .Senior
  else if y ≤ 3/2 then .Junior
  else if y ≤ 5/2 then .Sophomore
  else .Freshman

/-- The spec's standing map: `≤ 0.5 → Senior; ≤ 1.5 → Junior;
`≤ 2.5 → Sophomore; else Freshman` (stated from the spec's words, to be
compared with `getStudentYear`). -/
def classifyStanding (y : ℚ) : Standing :=
  if y ≤ 1/2 then .Senior
  else if y ≤ 3/2 then .Junior
  else if y ≤ 5/2 then .Sophomore
  else .Freshman

/-- Seniority weight of a standing (Senior 2.0, Junior 1.5, others 1.0). -/
def seniorityWeight : Standing → ℚ
  | .Senior => 2
  | .Junior => 3/2
  | _ => 1

/-- The `dept code` CSV header. -/
def deptCodeKey : String := "dept code"

/-- The `crs num` CSV header. -/
def crsNumKey : String := "crs num"

/-- The `sem` CSV header. -/
def semKey : String := "sem"

/-- The `course_id` field name read by the matrix endpoint's rarity
function (not a header of `section.csv`). -/
def courseIdKey : String := "course_id"

/-- The `semester` field name read by the matrix endpoint's rarity
function (not a header of `section.csv`). -/
def semesterKey : String := "semester"

/-- Course rarity of `scheduling-conflicts.js`: count the section rows with
`` `${section['dept code']}${section['crs num']}` === courseId `` and
`section.sem === semester`. -/
def calculateCourseRarityS (courseId : String) (sectionData : List Row) (semester : String) : Nat :=
  (sectionData.filter (fun s =>
    (getFieldT s deptCodeKey ++ getFieldT s crsNumKey == courseId) &&
    (getField s semKey == some semester))).length

/-- Course rarity of `conflict-matrix.js`: count the section rows with
`section.course_id === courseId` and `section.semester === semester`.
An absent field reads as `undefined` (`none` here), which never equals a
string, so rows lacking these headers never match. -/
def calculateCourseRarityM (courseId : String) (sectionData : List Row) (semester : String) : Nat :=
  (sectionData.filter (fun s =>
    (getField s courseIdKey == some courseId) &&
    (getField s semesterKey == some semester))).length

/-- The overlapping students of a pair, as computed in both API files:
`courseA.students.filter(a => courseB.students.some(b => a.id === b.id))`. -/
def overlapStudents (A B : CourseEnrollment) : List StudentInfo :=
  A.students.filter (fun a => B.students.any (fun b => a.id == b.id))

/-- The overlap count of a pair of enrollments. -/
def overlapCount (A B : CourseEnrollment) : Nat := (overlapStudents A B).length

/-- Rarity weight: `1 / numSections`, defaulting to `1` when no sections
were found. -/
def rarityWeight (n : Nat) : ℚ := if 0 < n then (n : ℚ)⁻¹ else 1

/-- Rounding to two decimal places: `Math.round(q * 100) / 100` (JS
`Math.round` is floor of the argument plus one half). -/
def round2 (q : ℚ) : ℚ := (⌊q * 100 + 1/2⌋ : ℚ) / 100

/-- The shared body of `calculateConflictLevel` (textually identical in
`scheduling-conflicts.js` and `conflict-matrix.js` except for which rarity
function and which semester-token handling it closes over, supplied here as
parameters): zero when the overlap is zero, otherwise
`round2(min(overlap * (rarityWeightA + rarityWeightB) * avgSeniority / 10, 1))`. -/
def calculateConflictLevelWith (rarity : String → Nat) (classify : StudentInfo → Standing)
    (A B : CourseEnrollment) : ℚ :=
  if overlapCount A B = 0 then 0
  else
    let rwA := rarityWeight (rarity A.course_id)
    let rwB := rarityWeight (rarity B.course_id)
    let ws := (overlapStudents A B).map (fun s => seniorityWeight (classify s))
    let avg := ws.sum / (ws.length : ℚ)
    round2 (min ((overlapCount A B : ℚ) * (rwA + rwB) * avg / 10) 1)

/-- Upper-level test: `parseInt(courseNumber) >= 300` (`NaN` compares
false). -/
def isUpperLevel (number : String) : Bool :=
  match parseIntStr number with
  | some n => 300 ≤ n
  | none => false

/-- The `calculateSeniorityImpact` of `scheduling-conflicts.js`: count
students graduating in the target year with the complementary season, or
(otherwise) whose expected-graduation token equals the target token. -/
def calculateSeniorityImpactS (students : List StudentInfo) (sem : Semester) : Nat :=
  students.foldl (fun n st =>
    if st.gradYear = (sem.year : Int) then
      if sem.season = .sp ∧ st.expectedGraduation.season = .fa then n + 1
      else if sem.season = .fa ∧ st.expectedGraduation.season = .sp then n + 1
      else n
    else if st.expectedGraduation = sem then n + 1
    else n) 0

/-- The `calculateSeniorityImpact` of `conflict-matrix.js`: it ignores the
target semester and counts students with
`gradYear <= new Date().getFullYear() + 1`; the ambient wall-clock year is
made an explicit `clockYear` argument here. -/
def calculateSeniorityImpactM (clockYear : Int) (students : List StudentInfo) : Nat :=
  students.countP (fun st => st.gradYear ≤ clockYear + 1)

/-- The rarity phrase of `generateExplanation`. -/
def rarityText (rA rB : Nat) : String :=
  if rA = 1 ∧ rB = 1 then "both are single-section"
  else if rA = 1 ∨ rB = 1 then "one is single-section"
  else ""

/-- The level phrase of `generateExplanation`. -/
def levelText (uA uB : Bool) : String :=
  if uA && uB then "upper-level"
  else if uA || uB then "mixed-level"
  else ""

/-- The seniority phrase of `generateExplanation`. -/
def seniorityText (n : Nat) : String :=
  if 0 < n then natString n ++ " graduating senior" ++ (if 1 < n then "s" else "") ++ " affected"
  else ""

/-- The separator of `parts.join('; ')`. -/
def joinSep : String := "; "

/-- Explanation text of a conflict, from `generateExplanation` (identical in
both API files up to the rarity and graduating-senior-count functions, taken
as parameters): empty parts are dropped (`filter(part => part)`) and the
rest joined with a semicolon, ending with a period. -/
def generateExplanationWith (rarity : String → Nat) (seniorCnt : List StudentInfo → Nat)
    (A B : CourseEnrollment) : String :=
  let ov := overlapCount A B
  let rt := rarityText (rarity A.course_id) (rarity B.course_id)
  let lt := levelText (isUpperLevel A.number) (isUpperLevel B.number)
  let sTxt := seniorityText (seniorCnt (overlapStudents A B))
  let part1 := natString ov ++ " student" ++ (if 1 < ov then "s" else "") ++
    " plan" ++ (if ov = 1 then "s" else "") ++ " to take both"
  let part2 :=
    if rt != "" && lt != "" then rt ++ " " ++ lt ++ " courses"
    else if rt != "" || lt != "" then (if rt != "" then rt else lt) ++ " courses"
    else ""
  String.intercalate joinSep ([part1, part2, sTxt].filter (fun p => p != "")) ++ "."

/-- The `rarityImpact` cascade common to both API files. -/
def rarityImpactText (rA rB : Nat) (uA uB : Bool) : String :=
  if rA = 1 ∧ rB = 1 then "Both are single-section upper-level"
  else if rA = 1 ∨ rB = 1 then "One is single-section upper-level"
  else if uA && uB then "Both are upper-level courses"
  else "Standard course availability"

/-- The `seniorityImpact` text common to both API files. -/
def seniorityImpactText (n : Nat) : String :=
  if 0 < n then natString n ++ " graduating senior" ++ (if 1 < n then "s" else "") ++ " affected"
  else "No graduating seniors affected"

/-- One emitted conflict record (`conflicts.push({...})` in both API
files). -/
structure ConflictRecord where
  courseA : String
  courseB : String
  overlap : Nat
  rarityImpact : String
  seniorityImpact : String
  conflictLevel : ℚ
  explanation : String
deriving DecidableEq

/-- Build the conflict record for an overlapping pair, shared shape of the
push in both API files (which re-round the already rounded level). -/
def mkConflictRecordWith (rarity : String → Nat) (classify : StudentInfo → Standing)
    (seniorCnt : List StudentInfo → Nat) (A B : CourseEnrollment) : ConflictRecord :=
  { courseA := A.department ++ A.number
    courseB := B.department ++ B.number
    overlap := overlapCount A B
    rarityImpact := rarityImpactText (rarity A.course_id) (rarity B.course_id)
      (isUpperLevel A.number) (isUpperLevel B.number)
    seniorityImpact := seniorityImpactText (seniorCnt (overlapStudents A B))
    conflictLevel := round2 (calculateConflictLevelWith rarity classify A B)
    explanation := generateExplanationWith rarity seniorCnt A B }

/-- The rarity closure of `scheduling-conflicts.js` for a section table and
semester token. -/
def scRarity (rows : List Row) (token : String) : String → Nat :=
  fun cid => calculateCourseRarityS cid rows token

/-- The rarity closure of `conflict-matrix.js` for a section table and
semester token. -/
def mRarity (rows : List Row) (token : String) : String → Nat :=
  fun cid => calculateCourseRarityM cid rows token

/-- `calculateConflictLevel` of `scheduling-conflicts.js`, for a parsed
target semester. -/
def calculateConflictLevelS (rows : List Row) (sem : Semester) (A B : CourseEnrollment) : ℚ :=
  calculateConflictLevelWith (scRarity rows (renderToken sem)) (fun s => getStudentYear s sem) A B

/-- `calculateConflictLevel` of `conflict-matrix.js`, for a parsed target
semester. -/
def calculateConflictLevelM (rows : List Row) (sem : Semester) (A B : CourseEnrollment) : ℚ :=
  calculateConflictLevelWith (mRarity rows (renderToken sem)) (fun s => getStudentYear s sem) A B

/-- Conflict record as emitted by `scheduling-conflicts.js` for a parsed
target semester. -/
def mkConflictRecordS (rows : List Row) (sem : Semester) (A B : CourseEnrollment) : ConflictRecord :=
  mkConflictRecordWith (scRarity rows (renderToken sem)) (fun s => getStudentYear s sem)
    (fun l => calculateSeniorityImpactS l sem) A B

/-- Conflict record as emitted by `conflict-matrix.js` for a parsed target
semester and wall-clock year. -/
def mkConflictRecordM (clockYear : Int) (rows : List Row) (sem : Semester)
    (A B : CourseEnrollment) : ConflictRecord :=
  mkConflictRecordWith (mRarity rows (renderToken sem)) (fun s => getStudentYear s sem)
    (calculateSeniorityImpactM clockYear) A B

/-- The last four characters of a token (`semester.slice(-4)`). -/
def lastFour (token : String) : List Char := token.data.drop (token.data.length - 4)

/-- The first two characters of a token (`semester.slice(0, 2)`). -/
def firstTwo (token : String) : List Char := token.data.take 2

/-- Token-level `getStudentYear`, exactly as `scheduling-conflicts.js` runs
it on the raw query token: `parseInt(semester.slice(-4))` for the year and
`semester.slice(0, 2)` for the season.  When `parseInt` yields `NaN` every
comparison in the source is false, so the chain falls through to
`Freshman`. -/
def getStudentYearT (st : StudentInfo) (token : String) : Standing :=
  match parseIntStr (String.mk (lastFour token)) with
  | none => .Freshman
  | some semYear =>
    let y : ℚ :=
      if st.gradYear = (semYear : Int) then
        if firstTwo token = ['s', 'p'] ∧ st.expectedGraduation.season = .fa then 1/2
        else if firstTwo token = ['f', 'a'] ∧ st.expectedGraduation.season = .sp then 1/2
        else 0
      else
        ((st.gradYear : ℚ) - (semYear : ℚ)) +
          (if firstTwo token = ['s', 'p'] ∧ st.expectedGraduation.season = .fa then -(1/2)
           else if firstTwo token = ['f', 'a'] ∧ st.expectedGraduation.season = .sp then 1/2
           else 0)
    if y ≤ 1/2 then .Senior
    else if y ≤ 3/2 then .Junior
    else if y ≤ 5/2 then .Sophomore
    else .Freshman

/-- Token-level `calculateSeniorityImpact` of `scheduling-conflicts.js`,
used by the endpoint on the raw query token.  The final branch models
`gradSemester === targetSemester`, a comparison of the raw token with the
student's expected-graduation token. -/
def calculateSeniorityImpactST (students : List StudentInfo) (token : String) : Nat :=
  students.foldl (fun n st =>
    match parseIntStr (String.mk (lastFour token)) with
    | some semYear =>
      if st.gradYear = (semYear : Int) then
        if firstTwo token = ['s', 'p'] ∧ st.expectedGraduation.season = .fa then n + 1
        else if firstTwo token = ['f', 'a'] ∧ st.expectedGraduation.season = .sp then n + 1
        else n
      else if renderToken st.expectedGraduation == token then n + 1
      else n
    | none =>
      if renderToken st.expectedGraduation == token then n + 1
      else n) 0

/-- Token-level `calculateConflictLevel` of `scheduling-conflicts.js`, as
run on the raw query token. -/
def calculateConflictLevelST (rows : List Row) (token : String) (A B : CourseEnrollment) : ℚ :=
  calculateConflictLevelWith (scRarity rows token) (fun s => getStudentYearT s token) A B

/-- Token-level conflict record of `scheduling-conflicts.js`. -/
def mkConflictRecordST (rows : List Row) (token : String) (A B : CourseEnrollment) : ConflictRecord :=
  mkConflictRecordWith (scRarity rows token) (fun s => getStudentYearT s token)
    (fun l => calculateSeniorityImpactST l token) A B

/-- The strict upper pairs `(courses[i], courses[j])`, `i < j`, in the
visit order of the two nested `for` loops of both report builders. -/
def upperPairs {α : Type*} : List α → List (α × α)
  | [] => []
  | x :: xs => xs.map (fun y => (x, y)) ++ upperPairs xs

/-- Descending order on conflict level, the comparator
`(a, b) => b.conflictLevel - a.conflictLevel` of the final sort (a stable
sort, as JS `Array.prototype.sort` is). -/
def levelDescLe (a b : ConflictRecord) : Prop := b.conflictLevel ≤ a.conflictLevel

instance : DecidableRel levelDescLe := fun a b => by
  unfold levelDescLe
  infer_instance

/-- The conflicts-only report (`{semester, conflicts}`, plus the optional
`message` the handler adds). -/
structure SchedReport where
  semester : String
  conflicts : List ConflictRecord
  message : Option String
deriving DecidableEq

/-- `analyzeSchedulingConflicts` of `scheduling-conflicts.js`: aggregate
enrollments for the raw query token, emit a record for every `i < j` pair
with positive overlap, and sort descending by conflict level.  The endpoint
performs no validation of the token. -/
def analyzeSchedulingConflicts (students : List StudentRec) (rows : List Row)
    (token : String) : SchedReport :=
  let enrollments := getCoursesForSemester students token
  let conflicts := (upperPairs enrollments).filterMap (fun p =>
    if 0 < overlapCount p.1 p.2 then some (mkConflictRecordST rows token p.1 p.2) else none)
  ⟨token, List.insertionSort levelDescLe conflicts, none⟩

/-- The informational message attached when no conflicts are found. -/
def noConflictsMsg : String := "No significant conflicts detected."

/-- The GET handler of `scheduling-conflicts.js` on a present `semester`
query parameter: it always answers 200 with the report, adding the
informational message when the conflicts list is empty. -/
def schedulingConflictsEndpoint (students : List StudentRec) (rows : List Row)
    (token : String) : Except String SchedReport :=
  let result := analyzeSchedulingConflicts students rows token
  if result.conflicts.isEmpty then .ok { result with message := some noConflictsMsg }
  else .ok result

/-- One entry of the matrix report's `courses` list. -/
structure CourseListEntry where
  id : String
  code : String
  title : String
  department : String
  number : String
deriving DecidableEq, Inhabited

/-- The course-list projection of an offered enrollment. -/
def entryOf (c : CourseEnrollment) : CourseListEntry :=
  ⟨c.course_id, c.department ++ c.number, c.title, c.department, c.number⟩

/-- The course-list sort order: by department (string order modelling
`localeCompare` on the ASCII department codes), then by numeric course
number; ties keep insertion order (the sort is stable). -/
def entryLe (a b : CourseListEntry) : Prop :=
  a.department < b.department ∨ (a.department = b.department ∧ parseIntD a.number ≤ parseIntD b.number)

instance : DecidableRel entryLe := fun a b => by
  unfold entryLe
  infer_instance

/-- The matrix report
(`{semester, courses, matrix, conflicts, totalOffered, totalPlanned}`). -/
structure MatrixReport where
  semester : String
  courses : List CourseListEntry
  matrix : List (List ℚ)
  conflicts : List ConflictRecord
  totalOffered : Nat
  totalPlanned : Nat
deriving DecidableEq

/-- The offering filter of `generateConflictMatrix`: the enrollments whose
course is offered in the target term. -/
def offeredCoursesOf (students : List StudentRec) (offerings : List (String × String))
    (sem : Semester) : List CourseEnrollment :=
  (getCoursesForSemester students (renderToken sem)).filter (fun c =>
    isCourseOffered offerings c.course_id (seasonName sem.season) sem.year)

/-- The sorted course list of `generateConflictMatrix`. -/
def courseListOf (students : List StudentRec) (offerings : List (String × String))
    (sem : Semester) : List CourseListEntry :=
  List.insertionSort entryLe ((offeredCoursesOf students offerings sem).map entryOf)

/-- One cell of the conflict matrix: `0` on the diagonal (`i === j`),
otherwise look the two courses up by id in the offered list and score the
pair when it overlaps. -/
def matrixCell (offered : List CourseEnrollment) (courseList : List CourseListEntry)
    (rows : List Row) (sem : Semester) (i j : Nat) : ℚ :=
  if i = j then 0
  else
    match offered.find? (fun c => c.course_id == (courseList.getD i default).id),
          offered.find? (fun c => c.course_id == (courseList.getD j default).id) with
    | some A, some B =>
      if 0 < overlapCount A B then round2 (calculateConflictLevelM rows sem A B) else 0
    | _, _ => 0

/-- The flat conflicts list of `generateConflictMatrix` before the final
sort: one record per `i < j` pair of offered courses with positive
overlap. -/
def conflictsListM (students : List StudentRec) (rows : List Row)
    (offerings : List (String × String)) (clockYear : Int) (sem : Semester) :
    List ConflictRecord :=
  (upperPairs (offeredCoursesOf students offerings sem)).filterMap (fun p =>
    if 0 < overlapCount p.1 p.2 then some (mkConflictRecordM clockYear rows sem p.1 p.2) else none)

/-- `generateConflictMatrix` of `conflict-matrix.js` for a parsed target
semester: aggregate enrollments, keep only courses offered in the target
term, sort the course list, emit the flat conflicts list from `i < j` pairs
of offered courses (in pre-sort order), and fill the full matrix in course
list order, with `0` on the diagonal and for pairs without overlap.  The
ambient wall-clock year read by `calculateSeniorityImpact` is the explicit
`clockYear`. -/
def generateConflictMatrix (students : List StudentRec) (rows : List Row)
    (offerings : List (String × String)) (clockYear : Int) (sem : Semester) : MatrixReport :=
  let offeredCourses := offeredCoursesOf students offerings sem
  let courseList := courseListOf students offerings sem
  let matrix := (List.range courseList.length).map (fun i =>
    (List.range courseList.length).map (fun j =>
      matrixCell offeredCourses courseList rows sem i j))
  { semester := renderToken sem
    courses := courseList
    matrix := matrix
    conflicts := List.insertionSort levelDescLe
      (conflictsListM students rows offerings clockYear sem)
    totalOffered := courseList.length
    totalPlanned := (getCoursesForSemester students (renderToken sem)).length }

/-- The error text of the `throw new Error('Invalid semester format')`. -/
def invalidSemesterMsg : String := "Invalid semester format"

/-- The GET handler of `conflict-matrix.js` on a present `semester` query
parameter: the token is matched against `(fa|sp)(\d{4})`; on failure the
builder throws before producing anything and the handler answers with a
single error.  On success the report is built for the matched season and
year (for tokens in canonical `fa`/`sp` + 4-digit-year form, the raw token
the source uses for plan lookups and the re-rendered parsed semester
coincide). -/
def conflictMatrixEndpoint (students : List StudentRec) (rows : List Row)
    (offerings : List (String × String)) (clockYear : Int) (token : String) :
    Except String MatrixReport :=
  match matchSemesterToken token with
  | none => .error invalidSemesterMsg
  | some (isFall, year) =>
    .ok (generateConflictMatrix students rows offerings clockYear
      ⟨if isFall then .fa else .sp, year⟩)

/-- The course code shown in conflict records and the course list:
department concatenated with the course number. -/
def codeOf (c : CourseEnrollment) : String := c.department ++ c.number

/-- The roster accumulated for a course id by a prefix of the visited
(student, plan entry) pairs: one `info` per `planned` entry with that id. -/
def rosterOf (ps : List (StudentRec × PlanCourse)) (cid : String) : List StudentInfo :=
  ps.filterMap (fun p =>
    if p.2.status == plannedStatus && p.2.course_id == cid then some p.1.info else none)

/-- Lookup of an enrollment by course id (`courseEnrollments[courseKey]`). -/
def enrollFor (acc : List CourseEnrollment) (cid : String) : Option CourseEnrollment :=
  acc.find? (fun e => e.course_id == cid)

/-- Spec-side overlap: the cardinality of the intersection of the two
rosters' student-id sets. -/
def specOverlap (A B : CourseEnrollment) : Nat :=
  ((A.students.map (·.id)).toFinset ∩ (B.students.map (·.id)).toFinset).card

/-- Spec-side average seniority weight: the mean of the seniority weights
over the overlapping students. -/
def specAvgSeniority (A B : CourseEnrollment) (sem : Semester) : ℚ :=
  ((overlapStudents A B).map (fun s => seniorityWeight (getStudentYear s sem))).sum /
    ((overlapStudents A B).length : ℚ)

/-- Spec-side rarity weight of a course for the conflicts-only report. -/
def specRarityWeight (cid : String) (rows : List Row) (sem : Semester) : ℚ :=
  rarityWeight (calculateCourseRarityS cid rows (renderToken sem))

/-- All `planned` course ids across all students' plans for a token, one
occurrence per plan entry (before any deduplication or offering filter). -/
def plannedIdsSpec (students : List StudentRec) (token : String) : List String :=
  students.flatMap (fun st =>
    ((planFor st token).filter (fun c => c.status == plannedStatus)).map (·.course_id))

/-- The roster a course id should receive: one `info` per matching
`planned` plan entry, in student order. -/
def rosterSpec (students : List StudentRec) (token : String) (cid : String) : List StudentInfo :=
  students.flatMap (fun st =>
    ((planFor st token).filter (fun c => c.status == plannedStatus && c.course_id == cid)).map
      (fun _ => st.info))

/-- A roster mentions each student id at most once. -/
@[reducible] def rosterIdsNodup (A : CourseEnrollment) : Prop := (A.students.map (·.id)).Nodup

/-- Two rosters drawn from the same student population: equal ids carry
equal records. -/
def consistentRosters (A B : CourseEnrollment) : Prop :=
  ∀ a ∈ A.students, ∀ b ∈ B.students, a.id = b.id → a = b

/-- The clock-independent fields of a conflict record. -/
structure ConflictCore where
  courseA : String
  courseB : String
  overlap : Nat
  rarityImpact : String
  conflictLevel : ℚ
deriving DecidableEq

/-- Forget the `seniorityImpact` and `explanation` texts of a record. -/
def stripClock (r : ConflictRecord) : ConflictCore :=
  ⟨r.courseA, r.courseB, r.overlap, r.rarityImpact, r.conflictLevel⟩

/-- Descending order on conflict level for stripped records. -/
def coreDescLe (a b : ConflictCore) : Prop := b.conflictLevel ≤ a.conflictLevel

/-! ### Concrete data used to exercise the definitions -/

/-- Spring 2026, the target semester of the spec's scenarios. -/
def spr2026 : Semester := ⟨.sp, 2026⟩

/-- The canonical token of Spring 2026. -/
def tok26 : String := "sp2026"

/-- A student graduating Spring 2026 — a Senior relative to `spr2026`. -/
def infoSenior1 : StudentInfo :=
  { id := 1, name := "S1", gradYear := 2026, expectedGraduation := spr2026 }

/-- A second Senior. -/
def infoSenior2 : StudentInfo :=
  { id := 2, name := "S2", gradYear := 2026, expectedGraduation := spr2026 }

/-- A student graduating Spring 2028 — a Sophomore relative to `spr2026`. -/
def infoSoph1 : StudentInfo :=
  { id := 3, name := "P1", gradYear := 2028, expectedGraduation := ⟨.sp, 2028⟩ }

/-- A second Sophomore. -/
def infoSoph2 : StudentInfo :=
  { id := 4, name := "P2", gradYear := 2028, expectedGraduation := ⟨.sp, 2028⟩ }

/-- Scenario course A: single-section CSCI339, planned by all four. -/
def enrA : CourseEnrollment :=
  { course_id := "CSCI339", department := "CSCI", number := "339", title := "TA",
    students := [infoSenior1, infoSenior2, infoSoph1, infoSoph2] }

/-- Scenario course B: three-section MATH201, planned by the same four. -/
def enrB : CourseEnrollment :=
  { course_id := "MATH201", department := "MATH", number := "201", title := "TB",
    students := [infoSenior1, infoSenior2, infoSoph1, infoSoph2] }

/-- A `section.csv` row for CSCI339 in Spring 2026. -/
def row339 : Row := [(deptCodeKey, r"CSCI"), (crsNumKey, r"339"), (semKey, r"sp2026")]

/-- A `section.csv` row for MATH201 in Spring 2026. -/
def row201 : Row := [(deptCodeKey, r"MATH"), (crsNumKey, r"201"), (semKey, r"sp2026")]

/-- Scenario section table: one CSCI339 section and three MATH201
sections. -/
def rowsScen : List Row := [row339, row201, row201, row201]

/-- CSCI339 as a plan entry. -/
def pcA : PlanCourse :=
  { course_id := "CSCI339", department := "CSCI", number := "339", title := "TA",
    status := plannedStatus }

/-- MATH201 as a plan entry. -/
def pcB : PlanCourse :=
  { course_id := "MATH201", department := "MATH", number := "201", title := "TB",
    status := plannedStatus }

/-- A student planning both courses in Spring 2026. -/
def stW1 : StudentRec :=
  { id := 1, name := "S1", gradYear := 2026, expectedGraduation := spr2026,
    plan := [(tok26, [pcA, pcB])] }

/-- A student planning only CSCI339 in Spring 2026. -/
def stW2 : StudentRec :=
  { id := 2, name := "S2", gradYear := 2027, expectedGraduation := ⟨.sp, 2027⟩,
    plan := [(tok26, [pcA])] }

/-- Offering table carrying both scenario courses every semester. -/
def offeringsBoth : List (String × String) := [(r"CSCI339", r"e"), (r"MATH201", r"e")]

/-- Offering table carrying only CSCI339. -/
def offeringsOnlyA : List (String × String) := [(r"CSCI339", r"e")]

/-- A student far from graduation (Fall 2030), planning both courses in
Spring 2026; the wall-clock year decides whether the matrix endpoint calls
this student a graduating senior. -/
def stClock : StudentRec :=
  { id := 7, name := "C", gradYear := 2030, expectedGraduation := ⟨.fa, 2030⟩,
    plan := [(tok26, [pcA, pcB])] }

/-- A student whose Spring 2026 plan lists CSCI339 twice. -/
def stDup : StudentRec :=
  { id := 9, name := "D", gradYear := 2027, expectedGraduation := ⟨.sp, 2027⟩,
    plan := [(tok26, [pcA, pcA, pcB])] }

/-- A Sophomore roster entry shared by the two C4 courses. -/
def infoSophC4 : StudentInfo :=
  { id := 5, name := "Q", gradYear := 2028, expectedGraduation := ⟨.sp, 2028⟩ }

/-- A two-section course planned by one Sophomore. -/
def enrC4A : CourseEnrollment :=
  { course_id := "CSCI360", department := "CSCI", number := "360", title := "TC",
    students := [infoSophC4] }

/-- Another two-section course planned by the same Sophomore. -/
def enrC4B : CourseEnrollment :=
  { course_id := "ARTH110", department := "ARTH", number := "110", title := "TD",
    students := [infoSophC4] }

/-- A `section.csv` row for CSCI360 in Spring 2026. -/
def row360 : Row := [(deptCodeKey, r"CSCI"), (crsNumKey, r"360"), (semKey, r"sp2026")]

/-- A `section.csv` row for ARTH110 in Spring 2026. -/
def row110 : Row := [(deptCodeKey, r"ARTH"), (crsNumKey, r"110"), (semKey, r"sp2026")]

/-- Section table giving both C4 courses two sections each. -/
def rowsC4 : List Row := [row360, row360, row110, row110]

/-- Offering table with the odd-fall course of the C5 scenario. -/
def offeringsFo : List (String × String) := [(r"MUS240", r"fo")]

/-- The offering code `e` (every semester). -/
def codeE : String := "e"

/-- The offering code `ef` (every fall). -/
def codeEF : String := "ef"

/-- The offering code `es` (every spring). -/
def codeES : String := "es"

/-- The offering code `fo` (odd-year falls). -/
def codeFO : String := "fo"

/-- The offering code `fe` (even-year falls). -/
def codeFE : String := "fe"

/-- The offering code `so` (odd-year springs). -/
def codeSO : String := "so"

/-- The offering code `se` (even-year springs). -/
def codeSE : String := "se"

/-- The legacy offering code `sp`, accepted by the resolver as
every-spring. -/
def codeSP : String := "sp"

/-- The course id of the C5 scenario. -/
def musId : String := "MUS240"

/-- The enrollment CSCI339 receives from `stDup`: the student appears once
per duplicate plan entry. -/
def enrDupA : CourseEnrollment :=
  { course_id := "CSCI339", department := "CSCI", number := "339", title := "TA",
    students := [stDup.info, stDup.info] }

/-- The enrollment MATH201 receives from `stDup`. -/
def enrDupB : CourseEnrollment :=
  { course_id := "MATH201", department := "MATH", number := "201", title := "TB",
    students := [stDup.info] }

/-- A token that does not match `(fa|sp)(\d{4})`. -/
def garbageTok : String := "garbage"

/-- The enrollment MATH201 receives from `stW1` alone. -/
def enrW201 : CourseEnrollment :=
  { course_id := "MATH201", department := "MATH", number := "201", title := "TB",
    students := [stW1.info] }

/-! ## Basic facts about seasons, weights and rounding -/

theorem season_sp_ne_fa : ¬ (Season.sp = Season.fa) := fun h => Season.noConfusion h

theorem season_fa_ne_sp : ¬ (Season.fa = Season.sp) := fun h => Season.noConfusion h

/-- When the graduation season matches the target season, the code's
`yearsUntilGraduation` is exactly the year difference. -/
theorem yug_same_season (st : StudentInfo) (sem : Semester)
    (hs : st.expectedGraduation.season = sem.season) :
    yearsUntilGraduation st sem = (st.gradYear : ℚ) - (sem.year : ℚ) := by
  unfold yearsUntilGraduation
  by_cases hy : st.gradYear = (sem.year : Int)
  · have h0 : (st.gradYear : ℚ) - (sem.year : ℚ) = 0 := by
      rw [sub_eq_zero]
      exact_mod_cast hy
    rw [if_pos hy, h0]
    cases hss : sem.season <;>
      simp [hss, hs, season_sp_ne_fa, season_fa_ne_sp]
  · rw [if_neg hy]
    cases hss : sem.season <;>
      simp [hss, hs, season_sp_ne_fa, season_fa_ne_sp]

/-- When the seasons differ, the code's `yearsUntilGraduation` is the year
difference plus or minus one half. -/
theorem yug_mismatch (st : StudentInfo) (sem : Semester)
    (hs : st.expectedGraduation.season ≠ sem.season) :
    yearsUntilGraduation st sem = (st.gradYear : ℚ) - (sem.year : ℚ) + 1/2 ∨
      yearsUntilGraduation st sem = (st.gradYear : ℚ) - (sem.year : ℚ) - 1/2 := by
  unfold yearsUntilGraduation
  have hgs : st.expectedGraduation.season = .fa ∨ st.expectedGraduation.season = .sp := by
    cases st.expectedGraduation.season
    · exact Or.inl rfl
    · exact Or.inr rfl
  by_cases hy : st.gradYear = (sem.year : Int)
  · have h0 : (st.gradYear : ℚ) - (sem.year : ℚ) = 0 := by
      rw [sub_eq_zero]
      exact_mod_cast hy
    rw [if_pos hy, h0]
    rcases hgs with hg | hg <;> cases hss : sem.season <;>
      simp_all [season_sp_ne_fa, season_fa_ne_sp]
  · rw [if_neg hy]
    rcases hgs with hg | hg <;> cases hss : sem.season <;>
      simp_all [season_sp_ne_fa, season_fa_ne_sp] <;> simp [sub_eq_add_neg]

theorem seniorityWeight_pos (s : Standing) : 0 < seniorityWeight s := by
  cases s <;> norm_num [seniorityWeight]

theorem rarityWeight_pos (n : Nat) : 0 < rarityWeight n := by
  unfold rarityWeight
  by_cases h : 0 < n
  · rw [if_pos h]
    positivity
  · rw [if_neg h]
    norm_num

theorem round2_nonneg {q : ℚ} (h : 0 ≤ q) : 0 ≤ round2 q := by
  unfold round2
  have : (0 : ℤ) ≤ ⌊q * 100 + 1/2⌋ := by
    rw [Int.floor_nonneg]
    nlinarith
  positivity

theorem round2_le_one {q : ℚ} (h : q ≤ 1) : round2 q ≤ 1 := by
  unfold round2
  have h2 : (⌊q * 100 + 1/2⌋ : ℤ) < 101 := by
    rw [Int.floor_lt]
    push_cast
    nlinarith
  rw [div_le_one (by norm_num)]
  have h3 : (⌊q * 100 + 1/2⌋ : ℤ) ≤ 100 := by omega
  exact_mod_cast h3

/-! ## The standing classifier (C6) -/

/-- C6: for every student (graduation season and year, the code's
`gradYear` and `expectedGraduation` season) and target semester, the
classifier computes `yearsUntilGraduation` as the year difference between
graduation and target, with a season mismatch contributing plus or minus
one half on top of the year difference, an exact same (season, year) pair
contributing 0, and then maps `≤ 0.5` to Senior, `≤ 1.5` to Junior,
`≤ 2.5` to Sophomore and anything larger to Freshman (the spec-side map
`classifyStanding`). -/
theorem C6_standing_classifier (st : StudentInfo) (sem : Semester) :
    ((st.expectedGraduation.season = sem.season ∧
        yearsUntilGraduation st sem = (st.gradYear : ℚ) - (sem.year : ℚ)) ∨
      (st.expectedGraduation.season ≠ sem.season ∧
        (yearsUntilGraduation st sem = (st.gradYear : ℚ) - (sem.year : ℚ) + 1/2 ∨
          yearsUntilGraduation st sem = (st.gradYear : ℚ) - (sem.year : ℚ) - 1/2))) ∧
    (st.gradYear = (sem.year : Int) ∧ st.expectedGraduation.season = sem.season →
      yearsUntilGraduation st sem = 0) ∧
    getStudentYear st sem = classifyStanding (yearsUntilGraduation st sem) := by
  refine ⟨?_, ?_, rfl⟩
  · by_cases hs : st.expectedGraduation.season = sem.season
    · exact Or.inl ⟨hs, yug_same_season st sem hs⟩
    · exact Or.inr ⟨hs, yug_mismatch st sem hs⟩
  · rintro ⟨hy, hs⟩
    rw [yug_same_season st sem hs, sub_eq_zero]
    exact_mod_cast hy

/-- Witness for C6 at a concrete Senior: graduating Spring 2026 with
target Spring 2026 gives zero years until graduation. -/
theorem C6_standing_classifier_witness :
    yearsUntilGraduation infoSenior1 spr2026 = 0 ∧
      getStudentYear infoSenior1 spr2026 =
        classifyStanding (yearsUntilGraduation infoSenior1 spr2026) :=
  ⟨(C6_standing_classifier infoSenior1 spr2026).2.1 ⟨by decide, by decide⟩,
    (C6_standing_classifier infoSenior1 spr2026).2.2⟩

/-! ## Totality and range of the pair score (C7) -/

/-- C7: the conflicts-report pair score is total and lies in `[0, 1]` for
all inputs; the rarity weight of a course with zero matching sections
defaults to `1`, and every rarity weight is positive, so no division by
zero occurs; the seniority mean is only formed in the positive-overlap
branch. -/
theorem C7_score_bounds (rows : List Row) (sem : Semester) (A B : CourseEnrollment) :
    (0 ≤ calculateConflictLevelS rows sem A B ∧ calculateConflictLevelS rows sem A B ≤ 1) ∧
    rarityWeight 0 = 1 ∧ (∀ n : Nat, 0 < rarityWeight n) := by
  refine ⟨?_, by norm_num [rarityWeight], rarityWeight_pos⟩
  unfold calculateConflictLevelS calculateConflictLevelWith
  by_cases h : overlapCount A B = 0
  · rw [if_pos h]
    norm_num
  · rw [if_neg h]
    set ws := (overlapStudents A B).map (fun s => seniorityWeight (getStudentYear s sem)) with hws
    have hsum : 0 ≤ ws.sum := by
      apply List.sum_nonneg
      intro x hx
      rw [hws] at hx
      obtain ⟨s, _, rfl⟩ := List.mem_map.mp hx
      exact le_of_lt (seniorityWeight_pos _)
    have hx : 0 ≤ (overlapCount A B : ℚ) *
        (rarityWeight (scRarity rows (renderToken sem) A.course_id) +
          rarityWeight (scRarity rows (renderToken sem) B.course_id)) *
        (ws.sum / (ws.length : ℚ)) / 10 := by
      have r1 := rarityWeight_pos (scRarity rows (renderToken sem) A.course_id)
      have r2 := rarityWeight_pos (scRarity rows (renderToken sem) B.course_id)
      positivity
    constructor
    · exact round2_nonneg (le_min hx (by norm_num))
    · exact round2_le_one (min_le_right _ _)

/-! ## The two endpoint scorers diverge on shared section data (C4) -/

/-- C4: on the same pair of enrollments, the same `section.csv` rows and
the same target semester, the conflicts-only scorer and the matrix scorer
disagree: the matrix endpoint's rarity lookup reads the nonexistent
`course_id`/`semester` columns, finds zero sections for every course, and
so scores this two-section pair `0.2` while the conflicts-only endpoint
scores it `0.1`. -/
theorem C4_endpoint_scorers_diverge :
    calculateConflictLevelS rowsC4 spr2026 enrC4A enrC4B = 1/10 ∧
    calculateConflictLevelM rowsC4 spr2026 enrC4A enrC4B = 1/5 ∧
    calculateCourseRarityS enrC4A.course_id rowsC4 (renderToken spr2026) = 2 ∧
    calculateCourseRarityM enrC4A.course_id rowsC4 (renderToken spr2026) = 0 := by
  have h1 : overlapStudents enrC4A enrC4B = [infoSophC4] := by decide
  have h2 : calculateCourseRarityS enrC4A.course_id rowsC4 (renderToken spr2026) = 2 := by decide
  have h3 : calculateCourseRarityS enrC4B.course_id rowsC4 (renderToken spr2026) = 2 := by decide
  have h4 : calculateCourseRarityM enrC4A.course_id rowsC4 (renderToken spr2026) = 0 := by decide
  have h5 : calculateCourseRarityM enrC4B.course_id rowsC4 (renderToken spr2026) = 0 := by decide
  have hs : getStudentYear infoSophC4 spr2026 = .Sophomore := by
    norm_num [getStudentYear, yearsUntilGraduation, infoSophC4, spr2026, season_sp_ne_fa,
      season_fa_ne_sp]
  refine ⟨?_, ?_, h2, h4⟩
  · simp only [calculateConflictLevelS, calculateConflictLevelWith, overlapCount, h1, scRarity,
      h2, h3, List.map_cons, List.map_nil, hs, List.length_cons, List.length_nil,
      List.sum_cons, List.sum_nil, seniorityWeight]
    norm_num [rarityWeight, round2]
  · simp only [calculateConflictLevelM, calculateConflictLevelWith, overlapCount, h1, mRarity,
      h4, h5, List.map_cons, List.map_nil, hs, List.length_cons, List.length_nil,
      List.sum_cons, List.sum_nil, seniorityWeight]
    norm_num [rarityWeight, round2]

/-! ## The enrollment aggregator: invariants and roster structure -/

theorem find?_map_keyed {α : Type*} (f : α → α) (p : α → Bool) (h : ∀ a, p (f a) = p a)
    (l : List α) : (l.map f).find? p = (l.find? p).map f := by
  induction l with
  | nil => rfl
  | cons a l ih =>
    cases hp : p a with
    | true => simp [List.find?_cons, h a, hp]
    | false => simp [List.find?_cons, h a, hp, ih]

theorem rosterOf_append (ps qs : List (StudentRec × PlanCourse)) (cid : String) :
    rosterOf (ps ++ qs) cid = rosterOf ps cid ++ rosterOf qs cid := by
  unfold rosterOf
  exact List.filterMap_append ps qs _

theorem rosterOf_single_pos (st : StudentRec) (c : PlanCourse) (cid : String)
    (h : (c.status == plannedStatus && c.course_id == cid) = true) :
    rosterOf [(st, c)] cid = [st.info] := by
  unfold rosterOf
  simp [List.filterMap, h]

theorem rosterOf_single_neg (st : StudentRec) (c : PlanCourse) (cid : String)
    (h : (c.status == plannedStatus && c.course_id == cid) = false) :
    rosterOf [(st, c)] cid = [] := by
  unfold rosterOf
  simp [List.filterMap, h]

/-- The invariant carried through the enrollment fold: distinct keys, each
key's roster matches the visited prefix, and a key is present exactly when
its roster is nonempty. -/
def AggInv (acc : List CourseEnrollment) (H : List (StudentRec × PlanCourse)) : Prop :=
  ((acc.map (fun e => e.course_id)).Nodup) ∧
  (∀ cid, (match enrollFor acc cid with | some e => e.students | none => []) = rosterOf H cid) ∧
  (∀ cid, (enrollFor acc cid).isSome = true ↔ rosterOf H cid ≠ [])

theorem addPlanned_inv {acc : List CourseEnrollment} {H : List (StudentRec × PlanCourse)}
    (st : StudentRec) (c : PlanCourse) (hI : AggInv acc H) :
    AggInv (addPlanned acc st c) (H ++ [(st, c)]) := by
  obtain ⟨I1, I2, I3⟩ := hI
  by_cases hp : (c.status == plannedStatus) = true
  · by_cases hex : (acc.any (fun e => e.course_id == c.course_id)) = true
    · -- update an existing enrollment
      have hstep : addPlanned acc st c = acc.map (fun e =>
          if e.course_id == c.course_id then { e with students := e.students ++ [st.info] }
          else e) := by
        unfold addPlanned
        rw [if_pos hp, if_pos hex]
      set f : CourseEnrollment → CourseEnrollment := fun e =>
        if e.course_id == c.course_id then { e with students := e.students ++ [st.info] }
        else e with hf
      have hfid : ∀ e, (f e).course_id = e.course_id := by
        intro e
        rw [hf]
        dsimp only
        by_cases h : (e.course_id == c.course_id) = true
        · rw [if_pos h]
        · rw [if_neg h]
      have hfind : ∀ cid, enrollFor (addPlanned acc st c) cid = (enrollFor acc cid).map f := by
        intro cid
        rw [hstep]
        unfold enrollFor
        exact find?_map_keyed f _ (fun a => by
          show decide ((f a).course_id = cid) = decide (a.course_id = cid)
          rw [hfid a]) acc
      refine ⟨?_, ?_, ?_⟩
      · rw [hstep, List.map_map]
        have : ((fun e => e.course_id) ∘ f) = fun e => e.course_id := by
          funext e
          exact hfid e
        rw [this]
        exact I1
      · intro cid
        rw [hfind cid, rosterOf_append]
        by_cases hcid : cid = c.course_id
        · subst hcid
          have hsome : (enrollFor acc c.course_id).isSome = true := by
            unfold enrollFor
            rw [List.find?_isSome]
            obtain ⟨e, he, hpe⟩ := List.any_eq_true.mp hex
            exact ⟨e, he, hpe⟩
          obtain ⟨e, he⟩ := Option.isSome_iff_exists.mp hsome
          have he' : acc.find? (fun x => x.course_id == c.course_id) = some e := he
          have heq : (e.course_id == c.course_id) = true := by
            have h0 := List.find?_some he'
            exact h0
          rw [he]
          dsimp only [Option.map]
          have h2 := I2 c.course_id
          rw [he] at h2
          rw [rosterOf_single_pos st c _ (by simp_all), ← h2, hf]
          simp only [heq, if_pos]
        · have hneg : (c.course_id == cid) = false := by
            rw [beq_eq_false_iff_ne]
            exact fun h => hcid h.symm
          rw [rosterOf_single_neg st c cid (by simp [hneg]), List.append_nil]
          have h2 := I2 cid
          cases hfc : enrollFor acc cid with
          | none =>
            rw [hfc] at h2
            simpa using h2
          | some e =>
            rw [hfc] at h2
            simp only at h2
            have hfc' : acc.find? (fun x => x.course_id == cid) = some e := hfc
            have heq : (e.course_id == cid) = true := by
              have h0 := List.find?_some hfc'
              exact h0
            have hne : (e.course_id == c.course_id) = false := by
              rw [beq_eq_false_iff_ne]
              rw [beq_iff_eq] at heq
              rw [heq]
              exact hcid
            dsimp only [Option.map]
            rw [hf]
            simp only [hne]
            simpa using h2
      · intro cid
        have hiso : (Option.map f (enrollFor acc cid)).isSome = (enrollFor acc cid).isSome := by
          cases enrollFor acc cid <;> rfl
        rw [hfind cid, rosterOf_append, hiso]
        by_cases hcid : cid = c.course_id
        · subst hcid
          constructor
          · intro _ hemp
            have hx := List.append_eq_nil.mp hemp
            rw [rosterOf_single_pos st c _ (by simp [hp])] at hx
            exact List.cons_ne_nil _ _ hx.2
          · intro _
            unfold enrollFor
            rw [List.find?_isSome]
            obtain ⟨e, he, hpe⟩ := List.any_eq_true.mp hex
            exact ⟨e, he, hpe⟩
        · have hneg : (c.course_id == cid) = false := by
            rw [beq_eq_false_iff_ne]
            exact fun h => hcid h.symm
          rw [rosterOf_single_neg st c cid (by simp [hneg]), List.append_nil]
          exact I3 cid
    · -- append a fresh enrollment
      have hstep : addPlanned acc st c =
          acc ++ [⟨c.course_id, c.department, c.number, c.title, [st.info]⟩] := by
        unfold addPlanned
        rw [if_pos hp, if_neg hex]
      have hnotmem : ∀ e ∈ acc, (e.course_id == c.course_id) = false := by
        intro e he
        cases h : (e.course_id == c.course_id) with
        | false => rfl
        | true => exact absurd (List.any_eq_true.mpr ⟨e, he, h⟩) hex
      have hsplit : ∀ cid, enrollFor (addPlanned acc st c) cid =
          (enrollFor acc cid).or
            (enrollFor [⟨c.course_id, c.department, c.number, c.title, [st.info]⟩] cid) := by
        intro cid
        rw [hstep]
        unfold enrollFor
        exact List.find?_append
      refine ⟨?_, ?_, ?_⟩
      · rw [hstep, List.map_append]
        rw [List.nodup_append]
        refine ⟨I1, by simp, ?_⟩
        intro k hk
        simp only [List.map_cons, List.map_nil, List.mem_singleton]
        obtain ⟨e, he, rfl⟩ := List.mem_map.mp hk
        intro hkc
        have hx := hnotmem e he
        simp only [beq_iff_eq] at hx
        rw [hkc] at hx
        simp at hx
      · intro cid
        rw [hsplit cid, rosterOf_append]
        by_cases hcid : cid = c.course_id
        · subst hcid
          have hnone : enrollFor acc c.course_id = none := by
            cases hfc : enrollFor acc c.course_id with
            | none => rfl
            | some e =>
              have hfc' : acc.find? (fun x => x.course_id == c.course_id) = some e := hfc
              have heq : (e.course_id == c.course_id) = true := by
                have h0 := List.find?_some hfc'
                exact h0
              have hmem := List.mem_of_find?_eq_some hfc'
              rw [hnotmem e hmem] at heq
              exact absurd heq (by simp)
          have hempty : rosterOf H c.course_id = [] := by
            by_contra hne
            have hx := (I3 c.course_id).mpr hne
            rw [hnone] at hx
            simp at hx
          rw [hnone, hempty]
          rw [rosterOf_single_pos st c _ (by simp [hp])]
          unfold enrollFor
          simp [List.find?]
        · have hneg : (c.course_id == cid) = false := by
            rw [beq_eq_false_iff_ne]
            exact fun h => hcid h.symm
          rw [rosterOf_single_neg st c cid (by simp [hneg]), List.append_nil]
          have hnone2 : enrollFor [⟨c.course_id, c.department, c.number, c.title, [st.info]⟩]
              cid = none := by
            unfold enrollFor
            simp [List.find?, hneg]
          rw [hnone2, Option.or_none]
          exact I2 cid
      · intro cid
        rw [hsplit cid, rosterOf_append]
        by_cases hcid : cid = c.course_id
        · subst hcid
          constructor
          · intro _ hemp
            have hx := List.append_eq_nil.mp hemp
            rw [rosterOf_single_pos st c _ (by simp [hp])] at hx
            exact List.cons_ne_nil _ _ hx.2
          · intro _
            have hone : enrollFor [⟨c.course_id, c.department, c.number, c.title, [st.info]⟩]
                c.course_id =
                  some ⟨c.course_id, c.department, c.number, c.title, [st.info]⟩ := by
              unfold enrollFor
              simp [List.find?]
            rw [hone]
            cases enrollFor acc c.course_id <;> simp [Option.or]
        · have hneg : (c.course_id == cid) = false := by
            rw [beq_eq_false_iff_ne]
            exact fun h => hcid h.symm
          rw [rosterOf_single_neg st c cid (by simp [hneg]), List.append_nil]
          have hnone2 : enrollFor [⟨c.course_id, c.department, c.number, c.title, [st.info]⟩]
              cid = none := by
            unfold enrollFor
            simp [List.find?, hneg]
          rw [hnone2, Option.or_none]
          exact I3 cid
  · -- not a planned entry: nothing changes
    have hstep : addPlanned acc st c = acc := by
      unfold addPlanned
      rw [if_neg hp]
    have hros : ∀ cid, rosterOf (H ++ [(st, c)]) cid = rosterOf H cid := by
      intro cid
      rw [rosterOf_append, rosterOf_single_neg st c cid (by simp [hp]), List.append_nil]
    refine ⟨by rw [hstep]; exact I1, ?_, ?_⟩
    · intro cid
      rw [hstep, hros cid]
      exact I2 cid
    · intro cid
      rw [hstep, hros cid]
      exact I3 cid

theorem foldl_addPlanned_inv (ps : List (StudentRec × PlanCourse)) :
    ∀ acc H, AggInv acc H →
      AggInv (ps.foldl (fun a p => addPlanned a p.1 p.2) acc) (H ++ ps) := by
  induction ps with
  | nil =>
    intro acc H h
    simpa using h
  | cons p ps ih =>
    intro acc H h
    have h1 := @addPlanned_inv acc H p.1 p.2 h
    have h2 := ih (addPlanned acc p.1 p.2) (H ++ [p]) h1
    simpa [List.append_assoc] using h2

theorem gcfs_inv (students : List StudentRec) (token : String) :
    AggInv (getCoursesForSemester students token) (planPairs students token) := by
  have h0 : AggInv [] [] := by
    refine ⟨by simp, ?_, ?_⟩
    · intro cid
      simp [enrollFor, rosterOf]
    · intro cid
      simp [enrollFor, rosterOf]
  have h := foldl_addPlanned_inv (planPairs students token) [] [] h0
  simpa [getCoursesForSemester] using h

theorem gcfs_keys_nodup (students : List StudentRec) (token : String) :
    ((getCoursesForSemester students token).map (fun e => e.course_id)).Nodup :=
  (gcfs_inv students token).1



theorem filterMap_const_if {α β : Type*} (p : α → Bool) (b : β) (l : List α) :
    (l.filterMap (fun a => if p a then some b else none)) = (l.filter p).map (fun _ => b) := by
  induction l with
  | nil => rfl
  | cons a l ih =>
    cases hp : p a with
    | true => simp [List.filterMap_cons, List.filter_cons, hp, ih]
    | false => simp [List.filterMap_cons, List.filter_cons, hp, ih]

theorem rosterOf_planPairs (students : List StudentRec) (token : String) (cid : String) :
    rosterOf (planPairs students token) cid = rosterSpec students token cid := by
  unfold rosterOf planPairs rosterSpec
  rw [List.filterMap_flatMap]
  congr 1
  funext st
  rw [List.filterMap_map]
  have : ((fun p : StudentRec × PlanCourse =>
      if p.2.status == plannedStatus && p.2.course_id == cid then some p.1.info else none) ∘
        (fun c => (st, c))) =
      fun c => if c.status == plannedStatus && c.course_id == cid then some st.info else none := by
    funext c
    rfl
  rw [this, filterMap_const_if]

theorem find?_key_of_mem {l : List CourseEnrollment}
    (hN : (l.map (fun e => e.course_id)).Nodup) {e : CourseEnrollment} (he : e ∈ l) :
    l.find? (fun x => x.course_id == e.course_id) = some e := by
  induction l with
  | nil => exact absurd he (List.not_mem_nil e)
  | cons a l ih =>
    rcases List.mem_cons.mp he with rfl | hmem
    · have hpa : ((fun x => x.course_id == e.course_id) e) = true := by simp
      simp [List.find?_cons, hpa]
    · have hne : (a.course_id == e.course_id) = false := by
        rw [beq_eq_false_iff_ne]
        intro hk
        have hmap : e.course_id ∈ l.map (fun e => e.course_id) := List.mem_map_of_mem _ hmem
        rw [← hk] at hmap
        exact (List.nodup_cons.mp (by simpa using hN)).1 hmap
      have hstep : List.find? (fun x => x.course_id == e.course_id) (a :: l) =
          List.find? (fun x => x.course_id == e.course_id) l := by
        simp [List.find?_cons, hne]
      rw [hstep]
      exact ih (List.nodup_cons.mp (by simpa using hN)).2 hmem

theorem mem_gcfs_students {students : List StudentRec} {token : String} {e : CourseEnrollment}
    (he : e ∈ getCoursesForSemester students token) :
    e.students = rosterSpec students token e.course_id := by
  have hI := gcfs_inv students token
  have hfind : enrollFor (getCoursesForSemester students token) e.course_id = some e := by
    unfold enrollFor
    exact find?_key_of_mem hI.1 he
  have h2 := hI.2.1 e.course_id
  rw [hfind] at h2
  simp only at h2
  rw [← rosterOf_planPairs]
  exact h2

theorem mem_plannedIdsSpec (students : List StudentRec) (token : String) (cid : String) :
    cid ∈ plannedIdsSpec students token ↔
      ∃ st ∈ students, ∃ c ∈ planFor st token,
        c.status = plannedStatus ∧ c.course_id = cid := by
  unfold plannedIdsSpec
  rw [List.mem_flatMap]
  constructor
  · rintro ⟨st, hst, hmem⟩
    obtain ⟨c, hc, rfl⟩ := List.mem_map.mp hmem
    obtain ⟨hcp, hcs⟩ := List.mem_filter.mp hc
    rw [beq_iff_eq] at hcs
    exact ⟨st, hst, c, hcp, hcs, rfl⟩
  · rintro ⟨st, hst, c, hcp, hcs, rfl⟩
    exact ⟨st, hst, List.mem_map_of_mem _
      (List.mem_filter.mpr ⟨hcp, beq_iff_eq.mpr hcs⟩)⟩

theorem rosterSpec_ne_nil_iff (students : List StudentRec) (token : String) (cid : String) :
    rosterSpec students token cid ≠ [] ↔ cid ∈ plannedIdsSpec students token := by
  rw [mem_plannedIdsSpec]
  constructor
  · intro hne
    obtain ⟨x, hx⟩ := List.exists_mem_of_ne_nil _ hne
    unfold rosterSpec at hx
    obtain ⟨st, hst, hmem⟩ := List.mem_flatMap.mp hx
    obtain ⟨c, hc, -⟩ := List.mem_map.mp hmem
    obtain ⟨hcp, hcs⟩ := List.mem_filter.mp hc
    rw [Bool.and_eq_true, beq_iff_eq, beq_iff_eq] at hcs
    exact ⟨st, hst, c, hcp, hcs.1, hcs.2⟩
  · rintro ⟨st, hst, c, hcp, hstat, hcid⟩
    intro hnil
    unfold rosterSpec at hnil
    rw [List.eq_nil_iff_forall_not_mem] at hnil
    refine hnil st.info (List.mem_flatMap.mpr ⟨st, hst, ?_⟩)
    refine List.mem_map_of_mem _ (List.mem_filter.mpr ⟨hcp, ?_⟩)
    rw [Bool.and_eq_true, beq_iff_eq, beq_iff_eq]
    exact ⟨hstat, hcid⟩

theorem gcfs_key_iff (students : List StudentRec) (token : String) (cid : String) :
    cid ∈ (getCoursesForSemester students token).map (fun e => e.course_id) ↔
      cid ∈ plannedIdsSpec students token := by
  have hI := gcfs_inv students token
  rw [← rosterSpec_ne_nil_iff, ← rosterOf_planPairs, ← hI.2.2 cid]
  unfold enrollFor
  rw [List.find?_isSome]
  constructor
  · intro h
    obtain ⟨e, he, rfl⟩ := List.mem_map.mp h
    exact ⟨e, he, by simp⟩
  · rintro ⟨e, he, hp⟩
    rw [beq_iff_eq] at hp
    rw [← hp]
    exact List.mem_map_of_mem _ he

theorem gcfs_length_eq_card (students : List StudentRec) (token : String) :
    (getCoursesForSemester students token).length =
      (plannedIdsSpec students token).toFinset.card := by
  have hN := gcfs_keys_nodup students token
  have hlen : (getCoursesForSemester students token).length =
      ((getCoursesForSemester students token).map (fun e => e.course_id)).length := by
    rw [List.length_map]
  rw [hlen, ← List.toFinset_card_of_nodup hN]
  congr 1
  ext cid
  simp only [List.mem_toFinset]
  exact gcfs_key_iff students token cid



theorem countP_flatMap' {α β : Type*} (p : β → Bool) (f : α → List β) (l : List α) :
    List.countP p (l.flatMap f) = (l.map (fun a => List.countP p (f a))).sum := by
  induction l with
  | nil => rfl
  | cons a l ih => simp [List.flatMap_cons, List.countP_append, ih]

theorem countP_congr' {α : Type*} {p q : α → Bool} {l : List α}
    (h : ∀ a ∈ l, p a = q a) : List.countP p l = List.countP q l := by
  induction l with
  | nil => rfl
  | cons a l ih =>
    rw [List.countP_cons, List.countP_cons, h a (List.mem_cons_self a l),
      ih (fun x hx => h x (List.mem_cons_of_mem a hx))]

theorem rosterSpec_length (students : List StudentRec) (token : String) (cid : String) :
    (rosterSpec students token cid).length = (plannedIdsSpec students token).count cid := by
  unfold rosterSpec plannedIdsSpec
  rw [List.length_flatMap, List.count, countP_flatMap']
  congr 1
  apply List.map_congr_left
  intro st _
  simp only [Function.comp]
  rw [List.length_map, List.countP_map, List.countP_filter, ← List.countP_eq_length_filter]
  apply countP_congr'
  intro c _
  simp only [Function.comp]
  exact Bool.and_comm _ _

theorem mem_rosterSpec_info {students : List StudentRec} {token cid : String} {x : StudentInfo}
    (hx : x ∈ rosterSpec students token cid) : ∃ st ∈ students, x = st.info := by
  unfold rosterSpec at hx
  obtain ⟨st, hst, hmem⟩ := List.mem_flatMap.mp hx
  obtain ⟨c, _, rfl⟩ := List.mem_map.mp hmem
  exact ⟨st, hst, rfl⟩

theorem nodup_const_map {α β : Type*} (b : β) {l : List α} (h : l.length ≤ 1) :
    (l.map (fun _ => b)).Nodup := by
  match l with
  | [] => simp
  | [a] => simp
  | a :: c :: t => simp at h

theorem filter_key_len_le_one {l : List PlanCourse} (cid : String)
    (h : (l.map (fun c => c.course_id)).Nodup) :
    (l.filter (fun c => c.course_id == cid)).length ≤ 1 := by
  induction l with
  | nil => simp
  | cons c t ih =>
    rw [List.map_cons, List.nodup_cons] at h
    cases hc : (c.course_id == cid) with
    | false =>
      rw [List.filter_cons_of_neg (by simp [hc])]
      exact ih h.2
    | true =>
      rw [List.filter_cons_of_pos (by simp [hc])]
      have hnil : t.filter (fun x => x.course_id == cid) = [] := by
        rw [List.eq_nil_iff_forall_not_mem]
        intro x hx
        obtain ⟨hxt, hxc⟩ := List.mem_filter.mp hx
        rw [beq_iff_eq] at hxc hc
        refine h.1 ?_
        rw [hc, ← hxc]
        exact List.mem_map_of_mem _ hxt
      rw [hnil]
      simp

theorem filter_status_key_len_le_one {l : List PlanCourse} (cid : String)
    (h : ((l.filter (fun c => c.status == plannedStatus)).map (fun c => c.course_id)).Nodup) :
    (l.filter (fun c => c.status == plannedStatus && c.course_id == cid)).length ≤ 1 := by
  have heq : l.filter (fun c => c.status == plannedStatus && c.course_id == cid) =
      (l.filter (fun c => c.status == plannedStatus)).filter (fun c => c.course_id == cid) := by
    rw [List.filter_filter]
    apply List.filter_congr
    intro a _
    exact (Bool.and_comm _ _)
  rw [heq]
  exact filter_key_len_le_one cid h

theorem pairwise_ne_id_of_nodup {students : List StudentRec}
    (hids : (students.map (fun s => s.id)).Nodup) :
    students.Pairwise (fun a b => a.id ≠ b.id) := by
  rw [List.Nodup, List.pairwise_map] at hids
  exact hids

theorem rosterSpec_ids_nodup (students : List StudentRec) (token : String) (cid : String)
    (hids : (students.map (fun s => s.id)).Nodup)
    (hplan : ∀ st ∈ students,
      (((planFor st token).filter (fun c => c.status == plannedStatus)).map
        (fun c => c.course_id)).Nodup) :
    ((rosterSpec students token cid).map (fun x => x.id)).Nodup := by
  unfold rosterSpec
  rw [List.map_flatMap]
  rw [List.nodup_flatMap]
  constructor
  · intro st hst
    rw [List.map_map]
    have hlen : ((planFor st token).filter
        (fun c => c.status == plannedStatus && c.course_id == cid)).length ≤ 1 :=
      filter_status_key_len_le_one cid (hplan st hst)
    exact nodup_const_map _ hlen
  · have hpw := pairwise_ne_id_of_nodup hids
    apply hpw.imp
    intro a b hab
    intro x hx1 hx2
    dsimp only at hx1 hx2
    rw [List.map_map] at hx1 hx2
    obtain ⟨c1, -, rfl⟩ := List.mem_map.mp hx1
    obtain ⟨c2, -, h2⟩ := List.mem_map.mp hx2
    exact hab (by simpa using h2.symm)

theorem gcfs_roster_nodup {students : List StudentRec} {token : String}
    (hids : (students.map (fun s => s.id)).Nodup)
    (hplan : ∀ st ∈ students,
      (((planFor st token).filter (fun c => c.status == plannedStatus)).map
        (fun c => c.course_id)).Nodup)
    {e : CourseEnrollment} (he : e ∈ getCoursesForSemester students token) :
    rosterIdsNodup e := by
  rw [rosterIdsNodup, mem_gcfs_students he]
  exact rosterSpec_ids_nodup students token e.course_id hids hplan

theorem gcfs_consistent {students : List StudentRec} {token : String}
    (hids : (students.map (fun s => s.id)).Nodup)
    {A B : CourseEnrollment} (hA : A ∈ getCoursesForSemester students token)
    (hB : B ∈ getCoursesForSemester students token) :
    consistentRosters A B := by
  intro a ha b hb hid
  rw [mem_gcfs_students hA] at ha
  rw [mem_gcfs_students hB] at hb
  obtain ⟨st1, hst1, rfl⟩ := mem_rosterSpec_info ha
  obtain ⟨st2, hst2, rfl⟩ := mem_rosterSpec_info hb
  have h12 : st1 = st2 := List.inj_on_of_nodup_map hids hst1 hst2 hid
  rw [h12]

theorem mem_overlapStudents {A B : CourseEnrollment} {x : StudentInfo} :
    x ∈ overlapStudents A B ↔ x ∈ A.students ∧ ∃ b ∈ B.students, x.id = b.id := by
  unfold overlapStudents
  rw [List.mem_filter, List.any_eq_true]
  constructor
  · rintro ⟨h1, b, hb, he⟩
    rw [beq_iff_eq] at he
    exact ⟨h1, b, hb, he⟩
  · rintro ⟨h1, b, hb, he⟩
    exact ⟨h1, b, hb, beq_iff_eq.mpr he⟩

theorem consistentRosters_symm {A B : CourseEnrollment} (h : consistentRosters A B) :
    consistentRosters B A :=
  fun b hb a ha hid => (h a ha b hb hid.symm).symm

theorem overlapStudents_nodup {A B : CourseEnrollment} (hA : rosterIdsNodup A) :
    (overlapStudents A B).Nodup :=
  List.Nodup.filter _ (List.Nodup.of_map _ hA)

theorem overlapStudents_subset {A B : CourseEnrollment} (hAB : consistentRosters A B) :
    overlapStudents A B ⊆ overlapStudents B A := by
  intro x hx
  rw [mem_overlapStudents] at hx ⊢
  obtain ⟨hxa, b, hb, hid⟩ := hx
  have hxb : x = b := hAB x hxa b hb hid
  refine ⟨by rw [hxb]; exact hb, x, hxa, rfl⟩

theorem overlapStudents_perm {A B : CourseEnrollment} (hA : rosterIdsNodup A)
    (hB : rosterIdsNodup B) (hAB : consistentRosters A B) :
    (overlapStudents A B).Perm (overlapStudents B A) :=
  (List.subperm_of_subset (overlapStudents_nodup hA) (overlapStudents_subset hAB)).antisymm
    (List.subperm_of_subset (overlapStudents_nodup hB)
      (overlapStudents_subset (consistentRosters_symm hAB)))

theorem overlapCount_pos_symm (A B : CourseEnrollment) :
    0 < overlapCount A B ↔ 0 < overlapCount B A := by
  unfold overlapCount
  rw [List.length_pos_iff_exists_mem, List.length_pos_iff_exists_mem]
  constructor
  · rintro ⟨x, hx⟩
    rw [mem_overlapStudents] at hx
    obtain ⟨hxa, b, hb, hid⟩ := hx
    exact ⟨b, mem_overlapStudents.mpr ⟨hb, x, hxa, hid.symm⟩⟩
  · rintro ⟨x, hx⟩
    rw [mem_overlapStudents] at hx
    obtain ⟨hxb, a, ha, hid⟩ := hx
    exact ⟨a, mem_overlapStudents.mpr ⟨ha, x, hxb, hid.symm⟩⟩

theorem calculateConflictLevelWith_symm (rarity : String → Nat)
    (classify : StudentInfo → Standing) {A B : CourseEnrollment} (hA : rosterIdsNodup A)
    (hB : rosterIdsNodup B) (hAB : consistentRosters A B) :
    calculateConflictLevelWith rarity classify A B =
      calculateConflictLevelWith rarity classify B A := by
  have hperm := overlapStudents_perm hA hB hAB
  have hlen : overlapCount A B = overlapCount B A := by
    unfold overlapCount
    exact hperm.length_eq
  have hmap := hperm.map (fun s => seniorityWeight (classify s))
  have hsum : ((overlapStudents A B).map (fun s => seniorityWeight (classify s))).sum =
      ((overlapStudents B A).map (fun s => seniorityWeight (classify s))).sum :=
    hmap.sum_eq
  have hlen2 : ((overlapStudents A B).map (fun s => seniorityWeight (classify s))).length =
      ((overlapStudents B A).map (fun s => seniorityWeight (classify s))).length :=
    hmap.length_eq
  unfold calculateConflictLevelWith
  dsimp only
  rw [hlen, hsum, hlen2, add_comm (rarityWeight (rarity A.course_id))
    (rarityWeight (rarity B.course_id))]

/-! ## Claims C1, C3, C8, C10 -/

/- C10 -/
/-- C10: the enrollment aggregator appends a student once per `planned`
plan entry, with no deduplication by student id: every roster's length is
the number of matching planned entries (counted with multiplicity), and for
a student planning CSCI339 twice the roster lists the student twice, so the
pair overlap with a co-planned course counts that student twice (and the
seniority mean averages over the duplicated entries). -/
theorem C10_duplicate_entries_double_count (students : List StudentRec) (token : String)
    (e : CourseEnrollment) (he : e ∈ getCoursesForSemester students token) :
    e.students.length = (plannedIdsSpec students token).count e.course_id ∧
    getCoursesForSemester [stDup] tok26 = [enrDupA, enrDupB] ∧
    overlapStudents enrDupA enrDupB = [stDup.info, stDup.info] ∧
    overlapCount enrDupA enrDupB = 2 := by
  refine ⟨?_, by decide, by decide, by decide⟩
  rw [mem_gcfs_students he]
  exact rosterSpec_length students token e.course_id

/-- Witness for C10 at the duplicate-entry student. -/
theorem C10_duplicate_entries_double_count_witness :
    enrDupA ∈ getCoursesForSemester [stDup] tok26 ∧
      enrDupA.students.length = (plannedIdsSpec [stDup] tok26).count enrDupA.course_id :=
  ⟨by decide, (C10_duplicate_entries_double_count [stDup] tok26 enrDupA (by decide)).1⟩

/- C1 -/
theorem overlapCount_eq_specOverlap {A B : CourseEnrollment} (hA : rosterIdsNodup A) :
    overlapCount A B = specOverlap A B := by
  unfold overlapCount overlapStudents specOverlap
  have h1 : A.students.filter (fun a => B.students.any (fun b => a.id == b.id)) =
      A.students.filter ((fun i => B.students.any (fun b => i == b.id)) ∘ (fun x => x.id)) := rfl
  rw [h1, ← List.length_map _ (fun x => x.id), ← List.filter_map]
  set idsA := A.students.map (fun x => x.id) with hidsA
  have hN : (idsA.filter (fun i => B.students.any (fun b => i == b.id))).Nodup :=
    List.Nodup.filter _ hA
  rw [← List.toFinset_card_of_nodup hN]
  congr 1
  ext i
  simp only [List.mem_toFinset, List.mem_filter, Finset.mem_inter, List.any_eq_true,
    beq_iff_eq, List.mem_map]
  constructor
  · rintro ⟨hi, b, hb, rfl⟩
    exact ⟨hi, b, hb, rfl⟩
  · rintro ⟨hi, b, hb, rfl⟩
    exact ⟨hi, b, hb, rfl⟩

/-- C1: on rosters without duplicate ids, the conflicts-report scorer's
overlap is exactly the student-id set intersection; a zero overlap yields
score 0 (no record), and a positive overlap yields
`round2(min(overlap * (rarityWeight A + rarityWeight B) * avgSeniority / 10, 1))`.
In the spec's scenario (course A with one section, course B with three, in
`sp2026`, four overlapping students: two Seniors and two Sophomores) the
score is 0.8. -/
theorem C1_pair_score_spec (A B : CourseEnrollment) (rows : List Row) (sem : Semester)
    (hA : rosterIdsNodup A) :
    overlapCount A B = specOverlap A B ∧
    (specOverlap A B = 0 → calculateConflictLevelS rows sem A B = 0) ∧
    (0 < specOverlap A B →
      calculateConflictLevelS rows sem A B =
        round2 (min ((specOverlap A B : ℚ) *
          (specRarityWeight A.course_id rows sem + specRarityWeight B.course_id rows sem) *
          specAvgSeniority A B sem / 10) 1)) ∧
    calculateConflictLevelS rowsScen spr2026 enrA enrB = 4/5 := by
  have hov := @overlapCount_eq_specOverlap A B hA
  refine ⟨hov, ?_, ?_, ?_⟩
  · intro h0
    unfold calculateConflictLevelS calculateConflictLevelWith
    rw [if_pos (by rw [hov, h0])]
  · intro hpos
    unfold calculateConflictLevelS calculateConflictLevelWith
    dsimp only
    rw [if_neg (by rw [hov]; omega)]
    unfold specRarityWeight specAvgSeniority scRarity
    rw [hov, List.length_map]
  · have h1 : overlapStudents enrA enrB = [infoSenior1, infoSenior2, infoSoph1, infoSoph2] := by
      decide
    have h2 : calculateCourseRarityS enrA.course_id rowsScen (renderToken spr2026) = 1 := by
      decide
    have h3 : calculateCourseRarityS enrB.course_id rowsScen (renderToken spr2026) = 3 := by
      decide
    have hs1 : getStudentYear infoSenior1 spr2026 = .Senior := by
      norm_num [getStudentYear, yearsUntilGraduation, infoSenior1, spr2026, season_sp_ne_fa,
        season_fa_ne_sp]
    have hs2 : getStudentYear infoSenior2 spr2026 = .Senior := by
      norm_num [getStudentYear, yearsUntilGraduation, infoSenior2, spr2026, season_sp_ne_fa,
        season_fa_ne_sp]
    have hs3 : getStudentYear infoSoph1 spr2026 = .Sophomore := by
      norm_num [getStudentYear, yearsUntilGraduation, infoSoph1, spr2026, season_sp_ne_fa,
        season_fa_ne_sp]
    have hs4 : getStudentYear infoSoph2 spr2026 = .Sophomore := by
      norm_num [getStudentYear, yearsUntilGraduation, infoSoph2, spr2026, season_sp_ne_fa,
        season_fa_ne_sp]
    simp only [calculateConflictLevelS, calculateConflictLevelWith, overlapCount, h1, scRarity,
      h2, h3, List.map_cons, List.map_nil, hs1, hs2, hs3, hs4, List.length_cons,
      List.length_nil, List.sum_cons, List.sum_nil, seniorityWeight]
    norm_num [rarityWeight, round2]

/-- Witness for C1 at the spec scenario. -/
theorem C1_pair_score_spec_witness :
    rosterIdsNodup enrA ∧ calculateConflictLevelS rowsScen spr2026 enrA enrB = 4/5 :=
  ⟨by decide, (C1_pair_score_spec enrA enrB rowsScen spr2026 (by decide)).2.2.2⟩

/- C8 -/
/-- C8 (amended): a semester token not matching `(fa|sp)(\d{4})` is a
fatal input error for the matrix report only — the endpoint returns a
single structured failure and no partial report; the conflicts-only
endpoint performs no token validation, and an empty conflicts list is not
an error there: the report is returned with the informational message. -/
theorem C8_error_semantics_amended :
    (∀ (students : List StudentRec) (rows : List Row) (offerings : List (String × String))
        (clockYear : Int) (token : String), matchSemesterToken token = none →
      conflictMatrixEndpoint students rows offerings clockYear token =
        .error invalidSemesterMsg) ∧
    (∀ (students : List StudentRec) (rows : List Row) (token : String),
      (analyzeSchedulingConflicts students rows token).conflicts = [] →
      schedulingConflictsEndpoint students rows token =
        .ok ⟨token, [], some noConflictsMsg⟩) := by
  constructor
  · intro students rows offerings clockYear token h
    unfold conflictMatrixEndpoint
    rw [h]
  · intro students rows token h
    unfold schedulingConflictsEndpoint
    have hsem : (analyzeSchedulingConflicts students rows token).semester = token := rfl
    rcases hE : analyzeSchedulingConflicts students rows token with ⟨sem', conf', msg'⟩
    rw [hE] at h hsem
    simp only at h hsem
    subst h
    subst hsem
    rfl

/-- C8 (counterexample): the conflicts-only endpoint does not treat a
malformed semester token as a fatal input error — on the token `garbage`
it succeeds with an empty report and the informational message, refuting
the claim for "every report request". -/
theorem C8_error_semantics_counterexample :
    matchSemesterToken garbageTok = none ∧
    schedulingConflictsEndpoint [stW1] [] garbageTok =
      .ok ⟨garbageTok, [], some noConflictsMsg⟩ :=
  ⟨by decide, by rfl⟩

/-- Witness for the amended C8 at concrete tokens. -/
theorem C8_error_semantics_amended_witness :
    matchSemesterToken garbageTok = none ∧
    conflictMatrixEndpoint [] [] [] 0 garbageTok = .error invalidSemesterMsg ∧
    (analyzeSchedulingConflicts [stW1] [] garbageTok).conflicts = [] ∧
    schedulingConflictsEndpoint [stW1] [] garbageTok =
      .ok ⟨garbageTok, [], some noConflictsMsg⟩ :=
  ⟨by decide, C8_error_semantics_amended.1 [] [] [] 0 garbageTok (by decide), by decide,
    C8_error_semantics_amended.2 [stW1] [] garbageTok (by decide)⟩

/- sort congruence for C3 -/
theorem orderedInsert_map_congr {α β : Type*} (f : α → β) (r : α → α → Prop) [DecidableRel r]
    (k : β → β → Prop) (hrk : ∀ a b, r a b ↔ k (f a) (f b)) {x y : α} (hxy : f x = f y) :
    ∀ {s₁ s₂ : List α}, s₁.map f = s₂.map f →
      (List.orderedInsert r x s₁).map f = (List.orderedInsert r y s₂).map f := by
  intro s₁
  induction s₁ with
  | nil =>
    intro s₂ h
    have hs : s₂ = [] := by
      cases s₂ with
      | nil => rfl
      | cons v t => simp at h
    subst hs
    simp [List.orderedInsert, hxy]
  | cons u s₁ ih =>
    intro s₂ h
    cases s₂ with
    | nil => simp at h
    | cons v s₂' =>
      rw [List.map_cons, List.map_cons] at h
      injection h with h1 h2
      rw [List.orderedInsert, List.orderedInsert]
      by_cases hr : r x u
      · have hr2 : r y v := by
          rw [hrk, ← hxy, ← h1]
          exact (hrk x u).mp hr
        rw [if_pos hr, if_pos hr2]
        rw [List.map_cons, List.map_cons, List.map_cons, List.map_cons, hxy, h1, h2]
      · have hr2 : ¬ r y v := by
          intro h'
          refine hr ?_
          rw [hrk, hxy, h1]
          exact (hrk y v).mp h'
        rw [if_neg hr, if_neg hr2, List.map_cons, List.map_cons, h1, ih h2]

theorem insertionSort_map_congr {α β : Type*} (f : α → β) (r : α → α → Prop) [DecidableRel r]
    (k : β → β → Prop) (hrk : ∀ a b, r a b ↔ k (f a) (f b)) :
    ∀ {l₁ l₂ : List α}, l₁.map f = l₂.map f →
      (List.insertionSort r l₁).map f = (List.insertionSort r l₂).map f := by
  intro l₁
  induction l₁ with
  | nil =>
    intro l₂ h
    have hs : l₂ = [] := by
      cases l₂ with
      | nil => rfl
      | cons v t => simp at h
    subst hs
    rfl
  | cons u l₁ ih =>
    intro l₂ h
    cases l₂ with
    | nil => simp at h
    | cons v l₂' =>
      rw [List.map_cons, List.map_cons] at h
      injection h with h1 h2
      rw [List.insertionSort, List.insertionSort]
      exact orderedInsert_map_congr f r k hrk h1 (ih h2)

/- C3 -/
/-- C3 (amended): for fixed inputs the matrix report is a pure function of
the inputs and the wall-clock year; every field except the conflicts'
`seniorityImpact` and `explanation` texts is independent of the clock
year. -/
theorem C3_report_deterministic_given_clock (students : List StudentRec) (rows : List Row)
    (offerings : List (String × String)) (sem : Semester) (y₁ y₂ : Int) :
    (generateConflictMatrix students rows offerings y₁ sem).semester =
      (generateConflictMatrix students rows offerings y₂ sem).semester ∧
    (generateConflictMatrix students rows offerings y₁ sem).courses =
      (generateConflictMatrix students rows offerings y₂ sem).courses ∧
    (generateConflictMatrix students rows offerings y₁ sem).matrix =
      (generateConflictMatrix students rows offerings y₂ sem).matrix ∧
    (generateConflictMatrix students rows offerings y₁ sem).totalOffered =
      (generateConflictMatrix students rows offerings y₂ sem).totalOffered ∧
    (generateConflictMatrix students rows offerings y₁ sem).totalPlanned =
      (generateConflictMatrix students rows offerings y₂ sem).totalPlanned ∧
    (generateConflictMatrix students rows offerings y₁ sem).conflicts.map stripClock =
      (generateConflictMatrix students rows offerings y₂ sem).conflicts.map stripClock := by
  refine ⟨rfl, rfl, rfl, rfl, rfl, ?_⟩
  show (List.insertionSort levelDescLe (conflictsListM students rows offerings y₁ sem)).map
      stripClock = _
  apply insertionSort_map_congr stripClock levelDescLe coreDescLe (fun a b => Iff.rfl)
  unfold conflictsListM
  rw [List.map_filterMap, List.map_filterMap]
  congr 1
  funext p
  by_cases hc : 0 < overlapCount p.1 p.2
  · rw [if_pos hc, if_pos hc]
    rfl
  · rw [if_neg hc, if_neg hc]

/-- C3 (counterexample): two evaluations of the matrix report on identical
inputs but different wall-clock years produce different `seniorityImpact`
texts, because the matrix endpoint's `calculateSeniorityImpact` reads
`new Date().getFullYear()`. -/
theorem C3_clock_dependence_counterexample :
    (generateConflictMatrix [stClock] [] offeringsBoth 2024 spr2026).conflicts.map
        (fun r => r.seniorityImpact) ≠
      (generateConflictMatrix [stClock] [] offeringsBoth 2100 spr2026).conflicts.map
        (fun r => r.seniorityImpact) := by
  decide

/-! ## The course-offering resolver (C5) -/

theorem natCharsAux_succ (fuel n : Nat) :
    natCharsAux (fuel + 1) n =
      if n < 10 then [digitChar n] else natCharsAux fuel (n / 10) ++ [digitChar (n % 10)] := rfl

theorem natCharsAux_four {fuel n : Nat} (h1 : 1000 ≤ n) (h2 : n ≤ 9999) (hf : 4 ≤ fuel) :
    natCharsAux fuel n =
      [digitChar (n / 1000), digitChar (n / 100 % 10), digitChar (n / 10 % 10),
        digitChar (n % 10)] := by
  obtain ⟨f, rfl⟩ : ∃ f, fuel = f + 4 := ⟨fuel - 4, by omega⟩
  have e1 : f + 4 = (f + 3) + 1 := rfl
  have e2 : f + 3 = (f + 2) + 1 := rfl
  have e3 : f + 2 = (f + 1) + 1 := rfl
  rw [e1, natCharsAux_succ, if_neg (by omega), e2, natCharsAux_succ, if_neg (by omega),
    e3, natCharsAux_succ, if_neg (by omega), natCharsAux_succ, if_pos (by omega)]
  have d1 : n / 10 / 10 / 10 = n / 1000 := by
    rw [Nat.div_div_eq_div_mul, Nat.div_div_eq_div_mul]
  have d2 : n / 10 / 10 = n / 100 := by
    rw [Nat.div_div_eq_div_mul]
  have d5 : n / 100 / 10 = n / 1000 := by
    rw [Nat.div_div_eq_div_mul]
  simp [d1, d2, d5]

theorem digitChar_isDigit {d : Nat} (h : d ≤ 9) : isDigitCh (digitChar d) = true := by
  interval_cases d <;> decide

theorem digitVal_digitChar {d : Nat} (h : d ≤ 9) : digitVal (digitChar d) = d := by
  interval_cases d <;> decide

theorem findFaSp_cons6 (a b c d e f : Char) (rest : List Char) :
    findFaSp (a :: b :: c :: d :: e :: f :: rest) =
      if ((a = 'f' ∧ b = 'a') ∨ (a = 's' ∧ b = 'p')) ∧
          (isDigitCh c ∧ isDigitCh d ∧ isDigitCh e ∧ isDigitCh f) then
        some (decide (a = 'f'),
          1000 * digitVal c + 100 * digitVal d + 10 * digitVal e + digitVal f)
      else findFaSp (b :: c :: d :: e :: f :: rest) := rfl

theorem findFaSp_fa {n : Nat} (h1 : 1000 ≤ n) (h2 : n ≤ 9999) :
    findFaSp ('f' :: 'a' :: natChars n) = some (true, n) := by
  have hd : natChars n =
      [digitChar (n / 1000), digitChar (n / 100 % 10), digitChar (n / 10 % 10),
        digitChar (n % 10)] :=
    natCharsAux_four h1 h2 (by omega)
  rw [natChars] at hd
  rw [natChars, hd, findFaSp_cons6, if_pos]
  · have v1 : digitVal (digitChar (n / 1000)) = n / 1000 := digitVal_digitChar (by omega)
    have v2 : digitVal (digitChar (n / 100 % 10)) = n / 100 % 10 := digitVal_digitChar (by omega)
    have v3 : digitVal (digitChar (n / 10 % 10)) = n / 10 % 10 := digitVal_digitChar (by omega)
    have v4 : digitVal (digitChar (n % 10)) = n % 10 := digitVal_digitChar (by omega)
    rw [v1, v2, v3, v4]
    have hv : 1000 * (n / 1000) + 100 * (n / 100 % 10) + 10 * (n / 10 % 10) + n % 10 = n := by
      omega
    rw [hv]
    rfl
  · refine ⟨Or.inl ⟨rfl, rfl⟩, ?_, ?_, ?_, ?_⟩ <;> exact digitChar_isDigit (by omega)

theorem findFaSp_sp {n : Nat} (h1 : 1000 ≤ n) (h2 : n ≤ 9999) :
    findFaSp ('s' :: 'p' :: natChars n) = some (false, n) := by
  have hd : natChars n =
      [digitChar (n / 1000), digitChar (n / 100 % 10), digitChar (n / 10 % 10),
        digitChar (n % 10)] :=
    natCharsAux_four h1 h2 (by omega)
  rw [natChars] at hd
  rw [natChars, hd, findFaSp_cons6, if_pos]
  · have v1 : digitVal (digitChar (n / 1000)) = n / 1000 := digitVal_digitChar (by omega)
    have v2 : digitVal (digitChar (n / 100 % 10)) = n / 100 % 10 := digitVal_digitChar (by omega)
    have v3 : digitVal (digitChar (n / 10 % 10)) = n / 10 % 10 := digitVal_digitChar (by omega)
    have v4 : digitVal (digitChar (n % 10)) = n % 10 := digitVal_digitChar (by omega)
    rw [v1, v2, v3, v4]
    have hv : 1000 * (n / 1000) + 100 * (n / 100 % 10) + 10 * (n / 10 % 10) + n % 10 = n := by
      omega
    rw [hv]
    rfl
  · refine ⟨Or.inr ⟨rfl, rfl⟩, ?_, ?_, ?_, ?_⟩ <;> exact digitChar_isDigit (by omega)

theorem isCourseOffered_cases (offerings : List (String × String)) (cid : String) (year : Nat)
    (code : String) (se : Season) (hy1 : 1000 ≤ year) (hy2 : year ≤ 9999)
    (hc : lookupOffering offerings cid = some code) :
    isCourseOffered offerings cid (seasonName se) year =
      (if code == "" then false
       else if code == "e" then true
       else if code == "ef" then decide (se = .fa)
       else if code == "es" then decide (se = .sp)
       else if code == "fo" then decide (se = .fa) && year % 2 == 1
       else if code == "fe" then decide (se = .fa) && year % 2 == 0
       else if code == "so" then decide (se = .sp) && year % 2 == 1
       else if code == "se" then decide (se = .sp) && year % 2 == 0
       else if code == "sp" then decide (se = .sp)
       else false) := by
  unfold isCourseOffered
  rw [hc]
  dsimp only
  cases se
  · have hshort :
        (if lowerStr (seasonName .fa) == String.mk ['f','a','l','l'] then String.mk ['f','a']
         else if lowerStr (seasonName .fa) == String.mk ['s','p','r','i','n','g'] then
           String.mk ['s','p']
         else lowerStr (seasonName .fa)) = String.mk ['f', 'a'] := by decide
    rw [hshort]
    have hfind : findFaSp ((String.mk ['f', 'a']).data ++ natChars year) = some (true, year) := by
      have he : (String.mk ['f', 'a']).data ++ natChars year = 'f' :: 'a' :: natChars year := rfl
      rw [he]
      exact findFaSp_fa hy1 hy2
    rw [hfind]
    dsimp only
    simp
  · have hshort :
        (if lowerStr (seasonName .sp) == String.mk ['f','a','l','l'] then String.mk ['f','a']
         else if lowerStr (seasonName .sp) == String.mk ['s','p','r','i','n','g'] then
           String.mk ['s','p']
         else lowerStr (seasonName .sp)) = String.mk ['s', 'p'] := by decide
    rw [hshort]
    have hfind : findFaSp ((String.mk ['s', 'p']).data ++ natChars year) =
        some (false, year) := by
      have he : (String.mk ['s', 'p']).data ++ natChars year = 's' :: 'p' :: natChars year := rfl
      rw [he]
      exact findFaSp_sp hy1 hy2
    rw [hfind]
    dsimp only
    simp

/-- C5: the offering resolver over the 4-digit-year token domain: a course
missing from the table is not offered; code `e` is offered always, `ef` and
`es` exactly when the season matches, and the odd/even codes exactly when
the season matches and the year parity matches (odd = 1, even = 0); a code
outside the recognized set (which also contains the legacy `sp`, treated as
every-spring) fails closed.  The `fo` scenario: not offered Spring 2026,
offered Fall 2025, not offered Fall 2026. -/
theorem C5_offering_resolver (offerings : List (String × String)) (cid : String) (se : Season)
    (year : Nat) (hy1 : 1000 ≤ year) (hy2 : year ≤ 9999) :
    (lookupOffering offerings cid = none →
      isCourseOffered offerings cid (seasonName se) year = false) ∧
    (lookupOffering offerings cid = some codeE →
      isCourseOffered offerings cid (seasonName se) year = true) ∧
    (lookupOffering offerings cid = some codeEF →
      (isCourseOffered offerings cid (seasonName se) year = true ↔ se = .fa)) ∧
    (lookupOffering offerings cid = some codeES →
      (isCourseOffered offerings cid (seasonName se) year = true ↔ se = .sp)) ∧
    (lookupOffering offerings cid = some codeFO →
      (isCourseOffered offerings cid (seasonName se) year = true ↔
        se = .fa ∧ year % 2 = 1)) ∧
    (lookupOffering offerings cid = some codeFE →
      (isCourseOffered offerings cid (seasonName se) year = true ↔
        se = .fa ∧ year % 2 = 0)) ∧
    (lookupOffering offerings cid = some codeSO →
      (isCourseOffered offerings cid (seasonName se) year = true ↔
        se = .sp ∧ year % 2 = 1)) ∧
    (lookupOffering offerings cid = some codeSE →
      (isCourseOffered offerings cid (seasonName se) year = true ↔
        se = .sp ∧ year % 2 = 0)) ∧
    (∀ c, lookupOffering offerings cid = some c →
      c ∉ [codeE, codeEF, codeES, codeFO, codeFE, codeSO, codeSE, codeSP] →
      isCourseOffered offerings cid (seasonName se) year = false) ∧
    isCourseOffered offeringsFo musId (seasonName .sp) 2026 = false ∧
    isCourseOffered offeringsFo musId (seasonName .fa) 2025 = true ∧
    isCourseOffered offeringsFo musId (seasonName .fa) 2026 = false := by
  refine ⟨?_, ?_, ?_, ?_, ?_, ?_, ?_, ?_, ?_, by decide, by decide, by decide⟩
  · intro h
    unfold isCourseOffered
    rw [h]
  · intro h
    rw [isCourseOffered_cases offerings cid year codeE se hy1 hy2 h]
    rfl
  · intro h
    rw [isCourseOffered_cases offerings cid year codeEF se hy1 hy2 h]
    simp [codeEF]
  · intro h
    rw [isCourseOffered_cases offerings cid year codeES se hy1 hy2 h]
    simp [codeES]
  · intro h
    rw [isCourseOffered_cases offerings cid year codeFO se hy1 hy2 h]
    simp [codeFO]
  · intro h
    rw [isCourseOffered_cases offerings cid year codeFE se hy1 hy2 h]
    simp [codeFE]
  · intro h
    rw [isCourseOffered_cases offerings cid year codeSO se hy1 hy2 h]
    simp [codeSO]
  · intro h
    rw [isCourseOffered_cases offerings cid year codeSE se hy1 hy2 h]
    simp [codeSE]
  · intro c h hmem
    rw [isCourseOffered_cases offerings cid year c se hy1 hy2 h]
    simp only [List.mem_cons, List.mem_singleton, not_or] at hmem
    obtain ⟨h1, h2, h3, h4, h5, h6, h7, h8, -⟩ := hmem
    simp only [codeE, codeEF, codeES, codeFO, codeFE, codeSO, codeSE, codeSP] at h1 h2 h3 h4 h5 h6 h7 h8
    by_cases hc0 : c = ""
    · subst hc0
      rfl
    · simp [beq_iff_eq, hc0, h1, h2, h3, h4, h5, h6, h7, h8]

/-- Witness for C5 at the odd-fall scenario course. -/
theorem C5_offering_resolver_witness :
    (1000 ≤ 2025 ∧ 2025 ≤ 9999) ∧
    lookupOffering offeringsFo musId = some codeFO ∧
    (isCourseOffered offeringsFo musId (seasonName .fa) 2025 = true ↔
      Season.fa = Season.fa ∧ 2025 % 2 = 1) :=
  ⟨⟨by decide, by decide⟩, by decide,
    (C5_offering_resolver offeringsFo musId .fa 2025 (by decide) (by decide)).2.2.2.2.1
      (by decide)⟩

theorem gcm_matrix_eq (students : List StudentRec) (rows : List Row)
    (offerings : List (String × String)) (clockYear : Int) (sem : Semester) :
    (generateConflictMatrix students rows offerings clockYear sem).matrix =
      (List.range (courseListOf students offerings sem).length).map (fun i =>
        (List.range (courseListOf students offerings sem).length).map (fun j =>
          matrixCell (offeredCoursesOf students offerings sem)
            (courseListOf students offerings sem) rows sem i j)) := rfl

/-- C9: the matrix report's totals and offering filter: `totalOffered`
equals the length of the sorted course list, `totalPlanned` is the number
of distinct planned course ids across all students regardless of offering,
any planned course that `isCourseOffered` rejects for the target term is
absent from the report's course list, and the matrix is square with one
row and one column per listed course. -/
theorem C9_offering_filter_totals (students : List StudentRec) (rows : List Row)
    (offerings : List (String × String)) (clockYear : Int) (sem : Semester) :
    (generateConflictMatrix students rows offerings clockYear sem).totalOffered =
      (generateConflictMatrix students rows offerings clockYear sem).courses.length ∧
    (generateConflictMatrix students rows offerings clockYear sem).totalPlanned =
      (plannedIdsSpec students (renderToken sem)).toFinset.card ∧
    (∀ c ∈ getCoursesForSemester students (renderToken sem),
      isCourseOffered offerings c.course_id (seasonName sem.season) sem.year = false →
      c.course_id ∉
        (generateConflictMatrix students rows offerings clockYear sem).courses.map
          (fun en => en.id)) ∧
    (generateConflictMatrix students rows offerings clockYear sem).matrix.length =
      (generateConflictMatrix students rows offerings clockYear sem).courses.length ∧
    (∀ row ∈ (generateConflictMatrix students rows offerings clockYear sem).matrix,
      row.length =
        (generateConflictMatrix students rows offerings clockYear sem).courses.length) := by
  refine ⟨rfl, ?_, ?_, ?_, ?_⟩
  · exact gcfs_length_eq_card students (renderToken sem)
  · intro c hc hnot hmem
    have hcourses : (generateConflictMatrix students rows offerings clockYear sem).courses =
        courseListOf students offerings sem := rfl
    rw [hcourses] at hmem
    obtain ⟨en, hen, hid⟩ := List.mem_map.mp hmem
    rw [courseListOf, List.mem_insertionSort] at hen
    obtain ⟨c', hc', rfl⟩ := List.mem_map.mp hen
    have hc'2 := List.mem_filter.mp hc'
    have hkey : c'.course_id = c.course_id := hid
    have hcc : c' = c :=
      List.inj_on_of_nodup_map (gcfs_keys_nodup students (renderToken sem)) hc'2.1 hc hkey
    rw [hcc, hnot] at hc'2
    exact absurd hc'2.2 (by simp)
  · rw [gcm_matrix_eq, List.length_map, List.length_range]
    rfl
  · intro row hrow
    rw [gcm_matrix_eq] at hrow
    obtain ⟨i, -, rfl⟩ := List.mem_map.mp hrow
    rw [List.length_map, List.length_range]
    rfl

theorem C9_offering_filter_totals_witness :
    enrW201 ∈ getCoursesForSemester [stW1, stW2] (renderToken spr2026) ∧
    isCourseOffered offeringsOnlyA enrW201.course_id (seasonName spr2026.season) spr2026.year
      = false ∧
    enrW201.course_id ∉
      (generateConflictMatrix [stW1, stW2] [] offeringsOnlyA 2024 spr2026).courses.map
        (fun en => en.id) ∧
    (generateConflictMatrix [stW1, stW2] [] offeringsOnlyA 2024 spr2026).totalPlanned = 2 :=
  ⟨by decide, by decide,
    (C9_offering_filter_totals [stW1, stW2] [] offeringsOnlyA 2024 spr2026).2.2.1 enrW201 (by decide) (by decide),
    ((C9_offering_filter_totals [stW1, stW2] [] offeringsOnlyA 2024 spr2026).2.1).trans (by decide)⟩



theorem upperPairs_cons {α : Type*} (a : α) (l : List α) :
    upperPairs (a :: l) = l.map (fun y => (a, y)) ++ upperPairs l := rfl

theorem mem_upperPairs {α : Type*} : ∀ {l : List α} {p : α × α},
    p ∈ upperPairs l → p.1 ∈ l ∧ p.2 ∈ l := by
  intro l
  induction l with
  | nil =>
    intro p h
    simp [upperPairs] at h
  | cons x xs ih =>
    intro p hp
    rw [upperPairs_cons] at hp
    rcases List.mem_append.mp hp with h | h
    · obtain ⟨y, hy, rfl⟩ := List.mem_map.mp h
      exact ⟨List.mem_cons_self x xs, List.mem_cons_of_mem _ hy⟩
    · obtain ⟨h1, h2⟩ := ih h
      exact ⟨List.mem_cons_of_mem _ h1, List.mem_cons_of_mem _ h2⟩

theorem countP_decideEq_of_nodup {α : Type*} [DecidableEq α] :
    ∀ {l : List α}, l.Nodup → ∀ {Y : α}, Y ∈ l →
      l.countP (fun y => decide (y = Y)) = 1 := by
  intro l
  induction l with
  | nil =>
    intro _ Y hY
    exact absurd hY (List.not_mem_nil Y)
  | cons a l ih =>
    intro hN Y hY
    have hNl := List.nodup_cons.mp hN
    rw [List.countP_cons]
    rcases List.mem_cons.mp hY with rfl | hYl
    · have h0 : l.countP (fun y => decide (y = Y)) = 0 := by
        rw [List.countP_eq_zero]
        intro y hy
        simp only [decide_eq_true_eq]
        rintro rfl
        exact hNl.1 hy
      rw [h0]
      simp
    · have hne : ¬ (a = Y) := by
        rintro rfl
        exact hNl.1 hYl
      rw [ih hNl.2 hYl]
      simp [hne]

theorem countP_upperPairs_eq_one {α : Type*} [DecidableEq α] :
    ∀ {l : List α}, l.Nodup → ∀ {X Y : α}, X ∈ l → Y ∈ l → X ≠ Y →
      (upperPairs l).countP (fun p => decide (p = (X, Y) ∨ p = (Y, X))) = 1 := by
  intro l
  induction l with
  | nil =>
    intro _ X Y hX
    exact absurd hX (List.not_mem_nil X)
  | cons a l ih =>
    intro hN X Y hX hY hne
    have hNl := List.nodup_cons.mp hN
    rw [upperPairs_cons, List.countP_append]
    rcases List.mem_cons.mp hX with rfl | hXl
    · have hYl : Y ∈ l := by
        rcases List.mem_cons.mp hY with h | h
        · exact absurd h.symm hne
        · exact h
      have h1 : (l.map (fun y => (X, y))).countP
          (fun p => decide (p = (X, Y) ∨ p = (Y, X))) =
            l.countP (fun y => decide (y = Y)) := by
        rw [List.countP_map]
        apply countP_congr'
        intro y _
        simp only [Function.comp]
        rw [decide_eq_decide]
        constructor
        · rintro (h | h)
          · exact (Prod.mk.injEq _ _ _ _ |>.mp h).2
          · exact absurd (Prod.mk.injEq _ _ _ _ |>.mp h).1 hne
        · intro h
          exact Or.inl (by rw [h])
      have h2 : (upperPairs l).countP (fun p => decide (p = (X, Y) ∨ p = (Y, X))) = 0 := by
        rw [List.countP_eq_zero]
        intro p hp
        have hm := mem_upperPairs hp
        simp only [decide_eq_true_eq]
        rintro (rfl | rfl)
        · exact hNl.1 hm.1
        · exact hNl.1 hm.2
      rw [h1, h2, countP_decideEq_of_nodup hNl.2 hYl]
    · rcases List.mem_cons.mp hY with rfl | hYl
      · have h1 : (l.map (fun y => (Y, y))).countP
            (fun p => decide (p = (X, Y) ∨ p = (Y, X))) =
              l.countP (fun y => decide (y = X)) := by
          rw [List.countP_map]
          apply countP_congr'
          intro y _
          simp only [Function.comp]
          rw [decide_eq_decide]
          constructor
          · rintro (h | h)
            · exact absurd (Prod.mk.injEq _ _ _ _ |>.mp h).1 (Ne.symm hne)
            · exact (Prod.mk.injEq _ _ _ _ |>.mp h).2
          · intro h
            exact Or.inr (by rw [h])
        have h2 : (upperPairs l).countP (fun p => decide (p = (X, Y) ∨ p = (Y, X))) = 0 := by
          rw [List.countP_eq_zero]
          intro p hp
          have hm := mem_upperPairs hp
          simp only [decide_eq_true_eq]
          rintro (rfl | rfl)
          · exact hNl.1 hm.2
          · exact hNl.1 hm.1
        rw [h1, h2, countP_decideEq_of_nodup hNl.2 hXl]
      · have h1 : (l.map (fun y => (a, y))).countP
            (fun p => decide (p = (X, Y) ∨ p = (Y, X))) = 0 := by
          rw [List.countP_map, List.countP_eq_zero]
          intro y _
          simp only [Function.comp, decide_eq_true_eq]
          rintro (h | h)
          · exact hNl.1 ((Prod.mk.injEq _ _ _ _ |>.mp h).1 ▸ hXl)
          · exact hNl.1 ((Prod.mk.injEq _ _ _ _ |>.mp h).1 ▸ hYl)
        rw [h1, ih hNl.2 hXl hYl hne]

theorem getD_range_map {β : Type*} (n : Nat) (f : Nat → β) (i : Nat) (d : β) :
    (((List.range n).map f).getD i d) = if i < n then f i else d := by
  rw [List.getD_eq_getElem?_getD, List.getElem?_map]
  by_cases h : i < n
  · rw [List.getElem?_range h]
    simp [h]
  · have hlen : (List.range n).length ≤ i := by
      rw [List.length_range]
      exact Nat.le_of_not_lt h
    rw [List.getElem?_eq_none hlen]
    simp [h]

theorem gcm_entry (students : List StudentRec) (rows : List Row)
    (offerings : List (String × String)) (clockYear : Int) (sem : Semester) (i j : Nat) :
    (((generateConflictMatrix students rows offerings clockYear sem).matrix.getD i []).getD j 0) =
      if i < (courseListOf students offerings sem).length ∧
          j < (courseListOf students offerings sem).length then
        matrixCell (offeredCoursesOf students offerings sem)
          (courseListOf students offerings sem) rows sem i j
      else 0 := by
  rw [gcm_matrix_eq, getD_range_map]
  by_cases hi : i < (courseListOf students offerings sem).length
  · rw [if_pos hi, getD_range_map]
    by_cases hj : j < (courseListOf students offerings sem).length
    · rw [if_pos hj, if_pos ⟨hi, hj⟩]
    · rw [if_neg hj, if_neg (fun h => hj h.2)]
  · rw [if_neg hi, if_neg (fun h => hi h.1)]
    rfl

theorem matrixCell_symm (offered : List CourseEnrollment) (courseList : List CourseListEntry)
    (rows : List Row) (sem : Semester)
    (hsym : ∀ A ∈ offered, ∀ B ∈ offered,
      calculateConflictLevelM rows sem A B = calculateConflictLevelM rows sem B A)
    (i j : Nat) :
    matrixCell offered courseList rows sem i j = matrixCell offered courseList rows sem j i := by
  unfold matrixCell
  by_cases hij : i = j
  · rw [hij]
  · rw [if_neg hij, if_neg (fun h => hij h.symm)]
    cases hA : offered.find? (fun c => c.course_id == (courseList.getD i default).id) with
    | none =>
      cases hB : offered.find? (fun c => c.course_id == (courseList.getD j default).id) with
      | none => rfl
      | some B => rfl
    | some A =>
      cases hB : offered.find? (fun c => c.course_id == (courseList.getD j default).id) with
      | none => rfl
      | some B =>
        have hAm := List.mem_of_find?_eq_some hA
        have hBm := List.mem_of_find?_eq_some hB
        dsimp only
        by_cases hov : 0 < overlapCount A B
        · rw [if_pos hov, if_pos ((overlapCount_pos_symm A B).mp hov), hsym A hAm B hBm]
        · rw [if_neg hov, if_neg (fun h => hov ((overlapCount_pos_symm B A).mp h))]

/-- C2: pair-score symmetry, matrix shape, and single emission: on
aggregated enrollments (distinct student ids, per-student planned course
ids distinct, distinct course codes) the matrix scorer is symmetric on
offered pairs, the conflict matrix is symmetric with a zero diagonal
(out-of-range cells read as `0`), and the flat conflicts list contains
each unordered pair of distinct offered courses exactly once when they
overlap — counted by course-code pair in either orientation — and never
when they do not. -/
theorem C2_symmetry_matrix_pairs (students : List StudentRec) (rows : List Row)
    (offerings : List (String × String)) (clockYear : Int) (sem : Semester)
    (hids : (students.map (fun s => s.id)).Nodup)
    (hplan : ∀ st ∈ students,
      (((planFor st (renderToken sem)).filter (fun c => c.status == plannedStatus)).map
        (fun c => c.course_id)).Nodup)
    (hcodes : ((getCoursesForSemester students (renderToken sem)).map codeOf).Nodup) :
    (∀ A ∈ offeredCoursesOf students offerings sem,
      ∀ B ∈ offeredCoursesOf students offerings sem,
        calculateConflictLevelM rows sem A B = calculateConflictLevelM rows sem B A) ∧
    (∀ i j,
      (((generateConflictMatrix students rows offerings clockYear sem).matrix.getD i
        []).getD j 0) =
      (((generateConflictMatrix students rows offerings clockYear sem).matrix.getD j
        []).getD i 0)) ∧
    (∀ i,
      (((generateConflictMatrix students rows offerings clockYear sem).matrix.getD i
        []).getD i 0) = 0) ∧
    (∀ A ∈ offeredCoursesOf students offerings sem,
      ∀ B ∈ offeredCoursesOf students offerings sem, A ≠ B →
        (generateConflictMatrix students rows offerings clockYear sem).conflicts.countP
          (fun r => (r.courseA == codeOf A && r.courseB == codeOf B) ||
                    (r.courseA == codeOf B && r.courseB == codeOf A)) =
          if 0 < overlapCount A B then 1 else 0) := by
  have hoff_sub : ∀ x ∈ offeredCoursesOf students offerings sem,
      x ∈ getCoursesForSemester students (renderToken sem) :=
    fun x hx => List.mem_of_mem_filter hx
  have hscore : ∀ A ∈ offeredCoursesOf students offerings sem,
      ∀ B ∈ offeredCoursesOf students offerings sem,
        calculateConflictLevelM rows sem A B = calculateConflictLevelM rows sem B A := by
    intro A hA B hB
    unfold calculateConflictLevelM
    exact calculateConflictLevelWith_symm _ _
      (gcfs_roster_nodup hids hplan (hoff_sub A hA))
      (gcfs_roster_nodup hids hplan (hoff_sub B hB))
      (gcfs_consistent hids (hoff_sub A hA) (hoff_sub B hB))
  have hcode_inj : ∀ x ∈ offeredCoursesOf students offerings sem,
      ∀ y ∈ offeredCoursesOf students offerings sem, codeOf x = codeOf y → x = y :=
    fun x hx y hy h =>
      List.inj_on_of_nodup_map hcodes (hoff_sub x hx) (hoff_sub y hy) h
  have hNoff : (offeredCoursesOf students offerings sem).Nodup :=
    List.Nodup.filter _ (List.Nodup.of_map _ (gcfs_keys_nodup students (renderToken sem)))
  refine ⟨hscore, ?_, ?_, ?_⟩
  · intro i j
    rw [gcm_entry, gcm_entry]
    by_cases hij : i < (courseListOf students offerings sem).length ∧
        j < (courseListOf students offerings sem).length
    · rw [if_pos hij, if_pos ⟨hij.2, hij.1⟩]
      exact matrixCell_symm _ _ rows sem hscore i j
    · rw [if_neg hij, if_neg (fun h => hij ⟨h.2, h.1⟩)]
  · intro i
    rw [gcm_entry]
    by_cases hi : i < (courseListOf students offerings sem).length ∧
        i < (courseListOf students offerings sem).length
    · rw [if_pos hi]
      unfold matrixCell
      rw [if_pos rfl]
    · rw [if_neg hi]
  · intro A hA B hB hne
    have hconf : (generateConflictMatrix students rows offerings clockYear sem).conflicts =
        List.insertionSort levelDescLe
          (conflictsListM students rows offerings clockYear sem) := rfl
    rw [hconf, List.Perm.countP_eq _ (List.perm_insertionSort levelDescLe _),
      conflictsListM, List.countP_filterMap]
    by_cases hov : 0 < overlapCount A B
    · rw [if_pos hov,
        ← countP_upperPairs_eq_one hNoff hA hB hne]
      apply countP_congr'
      intro p hp
      have hm := mem_upperPairs hp
      by_cases hovp : 0 < overlapCount p.1 p.2
      · rw [if_pos hovp]
        have hca : (mkConflictRecordM clockYear rows sem p.1 p.2).courseA = codeOf p.1 := rfl
        have hcb : (mkConflictRecordM clockYear rows sem p.1 p.2).courseB = codeOf p.2 := rfl
        show (((mkConflictRecordM clockYear rows sem p.1 p.2).courseA == codeOf A &&
              (mkConflictRecordM clockYear rows sem p.1 p.2).courseB == codeOf B) ||
             ((mkConflictRecordM clockYear rows sem p.1 p.2).courseA == codeOf B &&
              (mkConflictRecordM clockYear rows sem p.1 p.2).courseB == codeOf A)) =
             decide (p = (A, B) ∨ p = (B, A))
        rw [hca, hcb, Bool.eq_iff_iff]
        simp only [Bool.or_eq_true, Bool.and_eq_true, beq_iff_eq, decide_eq_true_eq]
        constructor
        · rintro (⟨h1, h2⟩ | ⟨h1, h2⟩)
          · exact Or.inl (Prod.ext_iff.mpr
              ⟨hcode_inj p.1 hm.1 A hA h1, hcode_inj p.2 hm.2 B hB h2⟩)
          · exact Or.inr (Prod.ext_iff.mpr
              ⟨hcode_inj p.1 hm.1 B hB h1, hcode_inj p.2 hm.2 A hA h2⟩)
        · rintro (h | h) <;> subst h <;> simp
      · rw [if_neg hovp]
        show false = decide (p = (A, B) ∨ p = (B, A))
        symm
        rw [decide_eq_false_iff_not]
        rintro (h | h) <;> subst h
        · exact hovp hov
        · exact hovp ((overlapCount_pos_symm A B).mp hov)
    · rw [if_neg hov, List.countP_eq_zero]
      intro p hp
      have hm := mem_upperPairs hp
      by_cases hovp : 0 < overlapCount p.1 p.2
      · rw [if_pos hovp]
        have hca : (mkConflictRecordM clockYear rows sem p.1 p.2).courseA = codeOf p.1 := rfl
        have hcb : (mkConflictRecordM clockYear rows sem p.1 p.2).courseB = codeOf p.2 := rfl
        show ¬ ((((mkConflictRecordM clockYear rows sem p.1 p.2).courseA == codeOf A &&
              (mkConflictRecordM clockYear rows sem p.1 p.2).courseB == codeOf B) ||
             ((mkConflictRecordM clockYear rows sem p.1 p.2).courseA == codeOf B &&
              (mkConflictRecordM clockYear rows sem p.1 p.2).courseB == codeOf A)) = true)
        rw [hca, hcb]
        simp only [Bool.or_eq_true, Bool.and_eq_true, beq_iff_eq]
        rintro (⟨h1, h2⟩ | ⟨h1, h2⟩)
        · exact hov ((hcode_inj p.1 hm.1 A hA h1) ▸ (hcode_inj p.2 hm.2 B hB h2) ▸ hovp)
        · exact hov ((overlapCount_pos_symm B A).mp
            ((hcode_inj p.1 hm.1 B hB h1) ▸ (hcode_inj p.2 hm.2 A hA h2) ▸ hovp))
      · rw [if_neg hovp]
        simp

theorem C2_symmetry_matrix_pairs_witness :
    (([stW1, stW2].map (fun s => s.id)).Nodup) ∧
    (((generateConflictMatrix [stW1, stW2] [] offeringsBoth 2024 spr2026).matrix.getD 0
      []).getD 0 0) = 0 :=
  ⟨by decide,
    (C2_symmetry_matrix_pairs [stW1, stW2] [] offeringsBoth 2024 spr2026
      (by decide) (by decide) (by decide)).2.2.1 0⟩

end Dukong
